import Mathlib

/-!
Verification of the Callico interactive image annotation front-end.

This file gives a shallow embedding, in Lean 4, of the geometry library
(front/src/js/helpers.js), the Vuex element store mutations, and the
InteractiveImage component methods (create, saveEdited, movePoint,
movePolygon, the delete-element handler) of the Callico repository, and
proves properties of the embedded definitions.

Conventions of the embedding:
- JavaScript numbers are modelled as rationals.  A coordinate that may be
  non-finite (NaN or an infinity) is modelled as an `Option` rational,
  `none` standing for any non-finite value; `Number.isFinite` is the
  `Option.isSome` test.
- `Math.round` is `mathRound`: JavaScript rounds half-up (towards plus
  infinity), which on rationals is `fun q => Int.floor (q + 1/2)`.
- Exceptions are modelled with `Except`; where a caller can observe partial
  state mutations made before a `throw`, the function returns a pair of the
  new state and an optional thrown failure instead.
- `Array.prototype.splice` is modelled by `jsSplice`, including the
  behaviour on a negative start index (counted from the end, clamped at 0)
  and on a start index past the end (clamped to the length).
-/

set_option maxRecDepth 100000

instance {ε α : Type} [DecidableEq ε] [DecidableEq α] : DecidableEq (Except ε α) := fun a b =>
  match a, b with
  | .error e1, .error e2 =>
    if h : e1 = e2 then .isTrue (by rw [h]) else .isFalse (by intro hc; injection hc; contradiction)
  | .error _, .ok _ => .isFalse (by intro hc; injection hc)
  | .ok _, .error _ => .isFalse (by intro hc; injection hc)
  | .ok v1, .ok v2 =>
    if h : v1 = v2 then .isTrue (by rw [h]) else .isFalse (by intro hc; injection hc; contradiction)

/-- JavaScript Math.round on a rational: round half towards positive infinity. -/
def mathRound (q : ℚ) : ℤ := ⌊q + 1/2⌋

/-- Coordinate of a JavaScript point: a finite rational, or a non-finite value. -/
abbrev Coord := Option ℚ

/-- Point as received by checkPolygon: a pair of possibly non-finite numbers. -/
abbrev RawPoint := Coord × Coord

/-- Point with integer coordinates, as produced by checkPolygon after rounding. -/
abbrev IntPoint := ℤ × ℤ

/-- Source helpers.js pointsEqual: componentwise equality of two points. -/
def pointsEqual {α : Type} [DecidableEq α] (p q : α × α) : Bool :=
  decide (p.1 = q.1) && decide (p.2 = q.2)

/-- Source helpers.js shiftPolygon: translate every point by a vector. -/
def shiftPolygon (points : List (ℚ × ℚ)) (offset : ℚ × ℚ) : List (ℚ × ℚ) :=
  points.map (fun p => (p.1 + offset.1, p.2 + offset.2))

/-- Tail of the consecutive deduplication loop of checkPolygon: prev is the
last kept element; any following element equal to it is dropped, and a
differing element is kept and becomes the new prev. -/
def dedupAfter {α : Type} [DecidableEq α] (prev : α) : List α → List α
  | [] => []
  | q :: rest => if prev = q then dedupAfter prev rest else q :: dedupAfter q rest

/-- Consecutive deduplication loop of checkPolygon (ABBC becomes ABC): the
while loop with splice removes any element equal to its predecessor (the
last kept element). -/
def dedupConsecutive {α : Type} [DecidableEq α] : List α → List α
  | [] => []
  | p :: rest => p :: dedupAfter p rest

/-- JavaScript Math.min spread over a list; the default stands for the empty
case (where JavaScript yields Infinity; every use below is on a nonempty
list). -/
def listMinD {α : Type} [LinearOrder α] (d : α) : List α → α
  | [] => d
  | x :: xs => xs.foldl min x

/-- JavaScript Math.max spread over a list; the default stands for the empty
case (where JavaScript yields negative Infinity; every use below is on a
nonempty list). -/
def listMaxD {α : Type} [LinearOrder α] (d : α) : List α → α
  | [] => d
  | x :: xs => xs.foldl max x

/-- Source helpers.js getSize: width and height of a polygon, as max minus
min of each coordinate. -/
def getSize (polygon : List IntPoint) : ℤ × ℤ :=
  let xCoords := polygon.map Prod.fst
  let yCoords := polygon.map Prod.snd
  (listMaxD 0 xCoords - listMinD 0 xCoords, listMaxD 0 yCoords - listMinD 0 yCoords)

/-- Width and height of a polygon of rational points, same min and max
computation as getSize (used to state claims about raw inputs). -/
def getSizeQ (polygon : List (ℚ × ℚ)) : ℚ × ℚ :=
  let xCoords := polygon.map Prod.fst
  let yCoords := polygon.map Prod.snd
  (listMaxD 0 xCoords - listMinD 0 xCoords, listMaxD 0 yCoords - listMinD 0 yCoords)

/-- Failure raised by checkPolygon.  typeError covers the TypeError throws
(non-finite point, and the destructuring crash on an empty polygon); the
other four constructors are the InvalidPolygonError reasons. -/
inductive PolyFailure : Type
  | typeError
  | negativeCoords
  | tooFewPoints
  | tooManyPoints
  | tooSmall
deriving DecidableEq

/-- Test mirroring the JavaScript check e instanceof InvalidPolygonError used
by the create method: every PolyFailure except typeError is an
InvalidPolygonError. -/
def isInvalidPolygonError : PolyFailure → Bool
  | .typeError => false
  | _ => true

/-- Source config.js POLYGON_MIN_SIZE. -/
def polygonMinSize : ℤ := 2

/-- Source config.js POLYGON_MAX_POINTS. -/
def polygonMaxPoints : ℕ := 163

/-- Source config.js IMAGE_WARNING_RATIO. -/
def imageWarningRatio : ℚ := 8/10

/-- Finiteness test of a single point in the type check loop of checkPolygon:
both coordinates must be finite numbers. -/
def finiteCoordPair : RawPoint → Option (ℚ × ℚ)
  | (some x, some y) => some (x, y)
  | (some _, none) => none
  | (none, _) => none

/-- Type check loop of checkPolygon: every point must be a pair of finite
numbers; on success the unwrapped finite points are returned (JavaScript
throws a TypeError at the first offending point; only the fact of failure
is observable here). -/
def finitePoints : List RawPoint → Option (List (ℚ × ℚ))
  | [] => some []
  | p :: rest =>
    match finiteCoordPair p, finitePoints rest with
    | some q, some l => some (q :: l)
    | _, _ => none

/-- Rounding step of checkPolygon: point.map(Math.round). -/
def roundPoint (p : ℚ × ℚ) : IntPoint := (mathRound p.1, mathRound p.2)

/-- Tail of checkPolygon from the negative coordinate check on, operating on
the already rounded points: rejects negative coordinates, removes
consecutive duplicate points, requires at least three unique points (four
when the first and last points are equal), at most 163 distinct points (164
allowed only when the first and last point are equal), and a bounding box
of at least minSize in both dimensions; returns the sanitized polygon. -/
def checkRounded (rounded : List IntPoint) (minSize : ℤ) : Except PolyFailure (List IntPoint) :=
  if rounded.any (fun p => decide (p.1 < 0) || decide (p.2 < 0)) then
    .error .negativeCoords
  else
    match dedupConsecutive rounded with
    -- an empty polygon reaches pointsEqual(newPolygon[0], ...) which
    -- destructures undefined and so throws a TypeError in JavaScript
    | [] => .error .typeError
    | p0 :: rest =>
      if (p0 :: rest).length <
          3 + (if pointsEqual p0 ((p0 :: rest).getLast (List.cons_ne_nil p0 rest)) then 1 else 0) then
        .error .tooFewPoints
      else if polygonMaxPoints + 1 < (p0 :: rest).length ∨
          ((p0 :: rest).length = polygonMaxPoints + 1 ∧
            ¬ (pointsEqual p0 ((p0 :: rest).getD polygonMaxPoints p0) = true)) then
        .error .tooManyPoints
      else if (getSize (p0 :: rest)).2 < minSize ∨ (getSize (p0 :: rest)).1 < minSize then
        .error .tooSmall
      else .ok (p0 :: rest)

/-- Source helpers.js checkPolygon: type checks every point is a pair of
finite numbers (else TypeError), rounds every coordinate with Math.round,
then applies the remaining checks on the rounded points (checkRounded). -/
def checkPolygon (polygon : List RawPoint) (minSize : ℤ) : Except PolyFailure (List IntPoint) :=
  match finitePoints polygon with
  | none => .error .typeError
  | some pts => checkRounded (pts.map roundPoint) minSize

/-- Injection of a finite rational point into the raw input type. -/
def ratRaw (p : ℚ × ℚ) : RawPoint := (some p.1, some p.2)

/-- Injection of a polygon of finite rational points into the raw input type. -/
def ratPolyRaw (l : List (ℚ × ℚ)) : List RawPoint := l.map ratRaw

/-- Injection of an integer point into the raw input type. -/
def intRaw (p : IntPoint) : RawPoint := (some (p.1 : ℚ), some (p.2 : ℚ))

/-- Injection of an integer polygon into the raw input type. -/
def intPolyRaw (l : List IntPoint) : List RawPoint := l.map intRaw

/-- Cast of an integer polygon to rational points. -/
def intPolyQ (l : List IntPoint) : List (ℚ × ℚ) := l.map (fun p => ((p.1 : ℚ), (p.2 : ℚ)))

/-- Source helpers.js polygonsEqual: structural equality of the two polygons
after independently normalizing both through checkPolygon; a failure of
either checkPolygon call propagates. -/
def polygonsEqual (polygon1 polygon2 : List RawPoint) : Except PolyFailure Bool :=
  match checkPolygon polygon1 polygonMinSize, checkPolygon polygon2 polygonMinSize with
  | .error f, _ => .error f
  | _, .error f => .error f
  | .ok a, .ok b => .ok (decide (a = b))

/-- Failure raised by checkImageSize, carrying the actual and expected sizes
and the source image URL shown in the warning message. -/
structure ImageSizeFailure : Type where
  actualWidth : ℚ
  actualHeight : ℚ
  expectedWidth : ℚ
  expectedHeight : ℚ
  url : String
deriving DecidableEq

/-- Source helpers.js checkImageSize: the width ratio, height ratio and area
ratio between the actual and expected image sizes must all lie inside the
tolerance band; otherwise an error carrying both sizes and the image URL is
raised.  The upper bound is written -imageWarningRatio + 2 as in the source. -/
def checkImageSize (imgWidth imgHeight expectedWidth expectedHeight : ℚ) (imageURL : String) :
    Except ImageSizeFailure Unit :=
  let ratios : List ℚ := [imgWidth / expectedWidth, imgHeight / expectedHeight,
    (imgWidth * imgHeight) / (expectedWidth * expectedHeight)]
  if ratios.any (fun ratio => decide (ratio < imageWarningRatio) ||
      decide (ratio > -imageWarningRatio + 2)) then
    .error { actualWidth := imgWidth, actualHeight := imgHeight,
             expectedWidth := expectedWidth, expectedHeight := expectedHeight, url := imageURL }
  else .ok ()

/-! Claim C4. -/

/-- Input refuting claim C4 as stated: 167 distinct points with non-negative
integer coordinates and a large bounding box, which checkPolygon still
rejects for exceeding the distinct point cap. -/
def c4Bad : List IntPoint :=
  (List.range 165).map (fun k : ℕ => ((k : ℤ), 0)) ++ [(0, 20), (164, 20)]

/-- Tail of the C5 counterexample input: 162 pairwise distinct rational
points that all round to the integer point (0, 20). -/
def c5Tail : List (ℚ × ℚ) := (List.range 162).map (fun k : ℕ => (0, 20 + ((k : ℚ) + 1) / 1000))

/-- Input refuting the 165-distinct-point part of claim C5 as stated: 165
pairwise distinct points (three integer corners and 162 rational points
rounding to the fourth corner) that checkPolygon accepts. -/
def c5Input : List (ℚ × ℚ) := [(0, 0), (20, 0), (20, 20)] ++ c5Tail

/-! Model of the image element, boundingBox and iiifUri (helpers.js). -/

/-- Raster image backing an element: width, height and source URL. -/
structure Image : Type where
  width : ℚ
  height : ℚ
  url : String
deriving DecidableEq

/-- Annotated element: an optional polygon and an optional image. -/
structure Element : Type where
  image : Option Image
  polygon : Option (List (ℚ × ℚ))
deriving DecidableEq

/-- Rectangular bounding box as returned by boundingBox. -/
structure Box : Type where
  x : ℚ
  y : ℚ
  width : ℚ
  height : ℚ
deriving DecidableEq

/-- Clamp of one coordinate to the range [0, limit], as done by boundingBox
when imageBounds is set: Math.min(limit, Math.max(v, 0)). -/
def clampTo (limit v : ℚ) : ℚ := min limit (max v 0)

/-- X coordinate spread of boundingBox: the polygon x coordinates, or
[0, image.width] when the element has no polygon (the default 0 for a
missing image is unreachable, boundingBox errors first). -/
def bbXCoords (element : Element) : List ℚ :=
  match element.polygon with
  | some polygon => polygon.map Prod.fst
  | none => [0, (element.image.map Image.width).getD 0]

/-- Y coordinate spread of boundingBox, like bbXCoords. -/
def bbYCoords (element : Element) : List ℚ :=
  match element.polygon with
  | some polygon => polygon.map Prod.snd
  | none => [0, (element.image.map Image.height).getD 0]

/-- Source helpers.js boundingBox: min and max over the polygon coordinates
(or the whole image when no polygon); with imageBounds, requires a valid
image and clamps every corner to its dimensions; without, returns the raw
box.  With neither polygon nor image, JavaScript throws reading
image.width. -/
def boundingBox (element : Element) (imageBounds : Bool) : Except String Box :=
  if element.polygon.isNone && element.image.isNone then
    .error "TypeError: cannot read the dimensions of a missing image"
  else if imageBounds then
    match element.image with
    | none => .error "An image is required."
    | some img =>
      if img.width ≤ 0 ∨ img.height ≤ 0 then
        .error "An image with valid dimensions is required."
      else
        .ok { x := clampTo img.width (listMinD 0 (bbXCoords element)),
              y := clampTo img.height (listMinD 0 (bbYCoords element)),
              width := clampTo img.width (listMaxD 0 (bbXCoords element)) -
                clampTo img.width (listMinD 0 (bbXCoords element)),
              height := clampTo img.height (listMaxD 0 (bbYCoords element)) -
                clampTo img.height (listMinD 0 (bbYCoords element)) }
  else
    .ok { x := listMinD 0 (bbXCoords element),
          y := listMinD 0 (bbYCoords element),
          width := listMaxD 0 (bbXCoords element) - listMinD 0 (bbXCoords element),
          height := listMaxD 0 (bbYCoords element) - listMinD 0 (bbYCoords element) }

/-- Test for url.endsWith(a slash), computed on the character list so that
it evaluates in the kernel. -/
def jsEndsWithSlash (s : String) : Bool := decide (s.data.getLast? = some '/')

/-- JavaScript comparison value > bound where value may be null (null
coerces to 0), as in the resize condition of iiifUri. -/
def jsGTD (v : Option ℚ) (b : ℚ) : Bool := decide (v.getD 0 > b)

/-- JavaScript comparison (value ?? Infinity) >= bound, as in the full-size
condition of iiifUri: a missing value counts as Infinity. -/
def jsGeD (v : Option ℚ) (b : ℚ) : Bool :=
  match v with
  | none => true
  | some x => decide (x ≥ b)

/-- JavaScript truthiness of an optional number: null and 0 are falsy. -/
def jsTruthyNum : Option ℚ → Bool
  | none => false
  | some v => decide (v ≠ 0)

/-- Normalization at the top of iiifUri: if (!width) width = null, so a
falsy (absent or zero) bound becomes null. -/
def normalizeBound : Option ℚ → Option ℚ
  | none => none
  | some v => if v = 0 then none else some v

/-- Decimal rendering of a rational as JavaScript prints a number; the
values rendered by the claims are all integral, where this agrees with
JavaScript. -/
def ratStr (q : ℚ) : String :=
  if q.den = 1 then toString q.num else toString q

/-- Rendering of the template fragment width ?? an empty string. -/
def optNumStr : Option ℚ → String
  | none => ""
  | some v => ratStr v

/-- Resize step of iiifUri: when exactly one bound strictly exceeds its box
dimension, both bounds are divided by the larger ratio and rounded; null
bounds contribute ratio 0 and are left null. -/
def iiifSizePair (box : Box) (w0 h0 : Option ℚ) : Option ℚ × Option ℚ :=
  if jsGTD w0 box.width ≠ jsGTD h0 box.height then
    (w0.map (fun v =>
      ((mathRound (v / max (w0.getD 0 / box.width) (h0.getD 0 / box.height)) : ℤ) : ℚ)),
     h0.map (fun v =>
      ((mathRound (v / max (w0.getD 0 / box.width) (h0.getD 0 / box.height)) : ℤ) : ℚ)))
  else (w0, h0)

/-- Size clause of iiifUri after the resize step: none stands for the
early return with the segment full (both effective bounds meet or exceed
the box); otherwise the clause width,height with an aspect-ratio-preserving
exclamation prefix when both bounds are truthy. -/
def iiifSizeClause (box : Box) (wh : Option ℚ × Option ℚ) : Option String :=
  if jsGeD wh.1 box.width && jsGeD wh.2 box.height then none
  else some ((if jsTruthyNum wh.1 && jsTruthyNum wh.2 then "!" else "") ++
    optNumStr wh.1 ++ "," ++ optNumStr wh.2)

/-- Region segment of iiifUri with the box used for the size computation:
the full image when there is no polygon; the polygon bounding box rendered
as x,y,w,h, or full when that box already covers the whole image.  The
error fallback is unreachable because iiifUri validates the image first. -/
def iiifRegion (img : Image) (element : Element) : String × Box :=
  match element.polygon with
  | none => ("full", { x := 0, y := 0, width := img.width, height := img.height })
  | some _ =>
    match boundingBox element true with
    | .error _ => ("full", { x := 0, y := 0, width := img.width, height := img.height })
    | .ok box =>
      if box.x ≤ 0 ∧ box.y ≤ 0 ∧ box.width ≥ img.width ∧ box.height ≥ img.height then
        ("full", box)
      else
        (ratStr box.x ++ "," ++ ratStr box.y ++ "," ++ ratStr box.width ++ "," ++
          ratStr box.height, box)

/-- Source helpers.js iiifUri: validates the image, assembles the region
segment, the optional resize, and the size clause into a IIIF URI with
rotation 0 and the default JPEG format. -/
def iiifUri (element : Element) (widthIn heightIn : Option ℚ) : Except String String :=
  match element.image with
  | none => .error "An image is required."
  | some img =>
    if img.width ≤ 0 ∨ img.height ≤ 0 then .error "An image with valid dimensions is required."
    else if img.url = "" then .error "An image with a valid URL is required."
    else
      match iiifSizeClause (iiifRegion img element).2
          (iiifSizePair (iiifRegion img element).2
            (normalizeBound widthIn) (normalizeBound heightIn)) with
      | none =>
        .ok ((if jsEndsWithSlash img.url then img.url else img.url ++ "/") ++
          (iiifRegion img element).1 ++ "/full/0/default.jpg")
      | some clause =>
        .ok ((if jsEndsWithSlash img.url then img.url else img.url ++ "/") ++
          (iiifRegion img element).1 ++ "/" ++ clause ++ "/0/default.jpg")

/-- Concrete element of the C9 example: a 100 by 100 image with no
polygon. -/
def iiifExampleElement : Element :=
  { image := some { width := 100, height := 100, url := "http://x/img" }, polygon := none }

/-! Model of the InteractiveImage region state (InteractiveImage.vue and the
element store). -/

/-- Identifier of a child region: a numeric id, or the synthetic string id
created-polygon of an in-progress drawing. -/
inductive ChildId : Type
  | num (n : ℤ)
  | createdPolygon
deriving DecidableEq

/-- Child region of the interactive image: an id and a polygon (domain
metadata opaque to the editor is omitted). -/
structure Child : Type where
  id : ChildId
  polygon : List (ℚ × ℚ)
deriving DecidableEq

/-- Notifications dispatched on the document by the editor or the element
store, in the order they are dispatched. -/
inductive BroadcastEvent : Type
  | createElement (id : ChildId) (polygon : List IntPoint)
  | updateElement (id : ChildId) (newPolygon : List IntPoint)
  | unselectElement (id : ChildId)
deriving DecidableEq

/-- State of the InteractiveImage component relevant to the region model:
the children list (possibly with null holes), the edited element, the
store selection, the drag bookkeeping fields, and the trace of dispatched
notifications. -/
structure EditorState : Type where
  parsedChildren : List (Option Child)
  editedElement : Option Child
  selected : List ChildId
  movedPointIndex : Option ℕ
  lastMousePosition : Option (ℚ × ℚ)
  updatedPolygon : Bool
  events : List BroadcastEvent
deriving DecidableEq

/-- Actual start index of Array.prototype.splice: a negative start counts
from the end clamped at 0, a start past the end is clamped to the
length. -/
def jsSpliceStart {α : Type} (l : List α) (start : ℤ) : ℕ :=
  if start < 0 then l.length - (-start).toNat else min start.toNat l.length

/-- JavaScript Array.prototype.splice: deleteCount elements are removed at
the actual start index and the items are inserted in their place. -/
def jsSplice {α : Type} (l : List α) (start : ℤ) (deleteCount : ℕ) (items : List α) : List α :=
  l.take (jsSpliceStart l start) ++ items ++ l.drop (jsSpliceStart l start + deleteCount)

/-- JavaScript indexed read children[i] where i may be -1 (not found) and
the slot may be a null hole; both give an absent child. -/
def jsIndexChild (children : List (Option Child)) (i : ℤ) : Option Child :=
  if i < 0 then none else children.getD i.toNat none

/-- JavaScript indexed write children[i] = v for an index known to be in
range (saveEdited only assigns at the index of a found base element). -/
def jsSetIndex {α : Type} (l : List α) (i : ℤ) (v : α) : List α :=
  if i < 0 then l else l.set i.toNat v

/-- Match test of getChildIndex: element?.id === id, a null hole never
matching. -/
def childMatches (oc : Option Child) (id : ChildId) : Bool :=
  match oc with
  | some c => decide (c.id = id)
  | none => false

/-- Source getChildIndex: findIndex of the child whose id matches, null
holes never matching; -1 when absent. -/
def getChildIndex (children : List (Option Child)) (id : ChildId) : ℤ :=
  match children with
  | [] => -1
  | oc :: rest =>
    if childMatches oc id then 0
    else if getChildIndex rest id < 0 then -1 else getChildIndex rest id + 1

/-- Test whether the edited element exists and has the given id, as in the
JavaScript editedElement?.id === id optional chains. -/
def editedIdIs (edited : Option Child) (id : ChildId) : Bool :=
  match edited with
  | some c => decide (c.id = id)
  | none => false

/-- Store mutation removeSelected with force (as called by the
delete-element handler): removes the id from the selection and dispatches
unselect-element, whose listener in the component synchronously clears a
matching edited element; a no-op when the id is not selected. -/
def removeSelectedForce (s : EditorState) (id : ChildId) : EditorState :=
  if id ∈ s.selected then
    { s with selected := s.selected.erase id,
             editedElement := if editedIdIs s.editedElement id then none else s.editedElement,
             events := s.events ++ [.unselectElement id] }
  else s

/-- Source InteractiveImage delete-element listener (created hook): force
unselect the id, splice the child out of parsedChildren at its index, and
clear the edited element when it references the id. -/
def deleteElementHandler (s : EditorState) (id : ChildId) : EditorState :=
  let s1 := removeSelectedForce s id
  let s2 := { s1 with
    parsedChildren := jsSplice s1.parsedChildren (getChildIndex s1.parsedChildren id) 1 [] }
  { s2 with editedElement := if editedIdIs s2.editedElement id then none else s2.editedElement }

/-- New id computation of create: the id of the last list entry plus one
when that entry exists and has a numeric id; 1 when the list is empty or
its last entry is null or carries the synthetic string id. -/
def editorNewId (children : List (Option Child)) : ℤ :=
  match children.getLast? with
  | some (some c) =>
    match c.id with
    | .num n => n + 1
    | .createdPolygon => 1
  | _ => 1

/-- Source InteractiveImage create method, returning the new state and the
exception escaping from it when one does: checkPolygon the edited polygon;
on an InvalidPolygonError silently drop the edited element; rethrow any
other failure; on success append a child with the computed id, clear the
edited element and dispatch create-element.  (The intermediate editElement
call before the id computation only matters to presentation watchers and
is not modelled.) -/
def create (s : EditorState) : EditorState × Option PolyFailure :=
  match s.editedElement with
  | none => (s, none)
  | some ee =>
    match checkPolygon (ratPolyRaw ee.polygon) polygonMinSize with
    | .error f =>
      if isInvalidPolygonError f then ({ s with editedElement := none }, none)
      else (s, some f)
    | .ok polygon =>
      ({ s with
          parsedChildren := s.parsedChildren ++
            [some { id := .num (editorNewId s.parsedChildren), polygon := intPolyQ polygon }],
          editedElement := none,
          events := s.events ++
            [.createElement (.num (editorNewId s.parsedChildren)) polygon] }, none)

/-- Source InteractiveImage saveEdited method, returning the new state and
the exception escaping from it when one does.  It resets the moved point
index, skips saving when a base element exists and the polygon was not
updated, then checks the edited polygon; a checkPolygon or polygonsEqual
failure is rethrown by the catch block (whose edit(baseElt or null) call
passes no action and is a no-op); a geometrically unchanged polygon is
skipped; otherwise the child is updated in place and update-element is
dispatched.  With no base element, reading baseElt.polygon throws a
TypeError which the catch rethrows.  (The hover reset inside it is
presentation only and is not modelled.) -/
def saveEdited (s : EditorState) : EditorState × Option PolyFailure :=
  match s.editedElement with
  | none => (s, some .typeError)
  | some ee =>
    let s1 : EditorState := { s with movedPointIndex := none }
    let idx := getChildIndex s1.parsedChildren ee.id
    let baseElt := jsIndexChild s1.parsedChildren idx
    if baseElt.isSome && !s1.updatedPolygon then (s1, none)
    else
      let s2 : EditorState := { s1 with updatedPolygon := false }
      match checkPolygon (ratPolyRaw ee.polygon) polygonMinSize with
      | .error f => (s2, some f)
      | .ok reordered =>
        match baseElt with
        | none => (s2, some .typeError)
        | some base =>
          match polygonsEqual (intPolyRaw reordered) (ratPolyRaw base.polygon) with
          | .error f => (s2, some f)
          | .ok true => (s2, none)
          | .ok false =>
            ({ s2 with
                parsedChildren := jsSetIndex s2.parsedChildren idx
                  (some { ee with polygon := intPolyQ reordered }),
                events := s2.events ++ [.updateElement ee.id reordered],
                editedElement := none }, none)

/-- Source InteractiveImage elementLimits: clamp a position into the
element bounding box. -/
def elementLimits (box : Box) (position : ℚ × ℚ) : ℚ × ℚ :=
  ((if position.1 < box.x then box.x
    else if position.1 > box.x + box.width then box.x + box.width
    else position.1),
   (if position.2 < box.y then box.y
    else if position.2 > box.y + box.height then box.y + box.height
    else position.2))

/-- Source InteractiveImage movePoint: replace the dragged vertex with the
clamped mouse position — also replacing the final vertex when dragging the
first, shared, vertex — and yield no polygon (undefined) when the clamped
position equals the current vertex.  The getD default is unreachable:
movedPointIndex always indexes a rendered vertex. -/
def movePoint (polygon : List (ℚ × ℚ)) (movedPointIndex : ℕ) (box : Box)
    (position : ℚ × ℚ) : Option (List (ℚ × ℚ)) :=
  if pointsEqual (polygon.getD movedPointIndex (0, 0)) (elementLimits box position) then none
  else if movedPointIndex = 0 then
    some (jsSplice (jsSplice polygon (movedPointIndex : ℤ) 1 [elementLimits box position])
      (-1) 1 [elementLimits box position])
  else
    some (jsSplice polygon (movedPointIndex : ℤ) 1 [elementLimits box position])

/-- Source InteractiveImage movePolygon: ignore a zero-pixel move, shift
the whole polygon by the mouse translation vector, and reject the move
entirely (undefined) when any shifted vertex leaves the bounding box. -/
def movePolygon (polygon : List (ℚ × ℚ)) (lastMousePosition : ℚ × ℚ) (box : Box)
    (position : ℚ × ℚ) : Option (List (ℚ × ℚ)) :=
  if pointsEqual lastMousePosition position then none
  else if (shiftPolygon polygon
      (position.1 - lastMousePosition.1, position.2 - lastMousePosition.2)).all
      (fun point => pointsEqual point (elementLimits box point)) then
    some (shiftPolygon polygon
      (position.1 - lastMousePosition.1, position.2 - lastMousePosition.2))
  else none

/-- Membership of a point in a bounding box, boundaries included. -/
def inBox (box : Box) (p : ℚ × ℚ) : Prop :=
  box.x ≤ p.1 ∧ p.1 ≤ box.x + box.width ∧ box.y ≤ p.2 ∧ p.2 ≤ box.y + box.height

/-- Valid 10 by 10 square polygon used by the concrete states. -/
def squarePolygon : List (ℚ × ℚ) := [(0, 0), (10, 0), (10, 10), (0, 10)]

/-- Degenerate 1 by 1 polygon rejected by checkPolygon as too small. -/
def tinyPolygon : List (ℚ × ℚ) := [(0, 0), (1, 0), (1, 1), (0, 1)]

/-- Child with a numeric id and a fixed valid square polygon, for concrete
states. -/
def sampleChild (n : ℤ) : Child :=
  { id := .num n, polygon := squarePolygon }

/-- Concrete editor state with five committed regions with ids 1 to 5 and
region 3 selected and edited. -/
def c1State : EditorState :=
  { parsedChildren := [some (sampleChild 1), some (sampleChild 2), some (sampleChild 3),
      some (sampleChild 4), some (sampleChild 5)],
    editedElement := some (sampleChild 3),
    selected := [.num 3],
    movedPointIndex := none,
    lastMousePosition := none,
    updatedPolygon := false,
    events := [] }

/-- Concrete editor state with five committed regions with ids 1 to 5 and
an in-progress drawing with a valid polygon. -/
def c2State : EditorState :=
  { parsedChildren := [some (sampleChild 1), some (sampleChild 2), some (sampleChild 3),
      some (sampleChild 4), some (sampleChild 5)],
    editedElement := some { id := .createdPolygon, polygon := squarePolygon },
    selected := [],
    movedPointIndex := none,
    lastMousePosition := none,
    updatedPolygon := false,
    events := [] }

/-- Concrete editor state editing region 1 into a degenerate 1 by 1
polygon, with the drag marked as having modified the polygon. -/
def c3State : EditorState :=
  { parsedChildren := [some (sampleChild 1)],
    editedElement := some { id := .num 1, polygon := tinyPolygon },
    selected := [],
    movedPointIndex := some 2,
    lastMousePosition := none,
    updatedPolygon := true,
    events := [] }

/-- Concrete idle-list state with an invalid in-progress drawing, for the
C3 witness. -/
def c3CreateState : EditorState :=
  { parsedChildren := [],
    editedElement := some { id := .createdPolygon, polygon := tinyPolygon },
    selected := [],
    movedPointIndex := none,
    lastMousePosition := none,
    updatedPolygon := false,
    events := [] }

/-! Lemmas about listMinD and listMaxD. -/

theorem foldl_min_le_init {α : Type} [LinearOrder α] (l : List α) (a : α) :
    l.foldl min a ≤ a := by
  induction l generalizing a with
  | nil => exact le_refl a
  | cons x xs ih => exact le_trans (ih (min a x)) (min_le_left a x)

theorem foldl_min_le_mem {α : Type} [LinearOrder α] {l : List α} {x : α} (hx : x ∈ l) (a : α) :
    l.foldl min a ≤ x := by
  induction l generalizing a with
  | nil => cases hx
  | cons y ys ih =>
    rcases List.mem_cons.mp hx with h | h
    · subst h
      exact le_trans (foldl_min_le_init ys (min a x)) (min_le_right a x)
    · exact ih h (min a y)

theorem foldl_min_mem {α : Type} [LinearOrder α] (l : List α) (a : α) :
    l.foldl min a = a ∨ l.foldl min a ∈ l := by
  induction l generalizing a with
  | nil => left; rfl
  | cons x xs ih =>
    rcases ih (min a x) with h | h
    · rcases min_cases a x with ⟨h2, _⟩ | ⟨h2, _⟩
      · left; rw [List.foldl_cons, h, h2]
      · right; rw [List.foldl_cons, h, h2]; exact List.mem_cons_self x xs
    · right; exact List.mem_cons_of_mem x h

theorem init_le_foldl_max {α : Type} [LinearOrder α] (l : List α) (a : α) :
    a ≤ l.foldl max a := by
  induction l generalizing a with
  | nil => exact le_refl a
  | cons x xs ih => exact le_trans (le_max_left a x) (ih (max a x))

theorem mem_le_foldl_max {α : Type} [LinearOrder α] {l : List α} {x : α} (hx : x ∈ l) (a : α) :
    x ≤ l.foldl max a := by
  induction l generalizing a with
  | nil => cases hx
  | cons y ys ih =>
    rcases List.mem_cons.mp hx with h | h
    · subst h
      exact le_trans (le_max_right a x) (init_le_foldl_max ys (max a x))
    · exact ih h (max a y)

theorem foldl_max_mem {α : Type} [LinearOrder α] (l : List α) (a : α) :
    l.foldl max a = a ∨ l.foldl max a ∈ l := by
  induction l generalizing a with
  | nil => left; rfl
  | cons x xs ih =>
    rcases ih (max a x) with h | h
    · rcases max_cases a x with ⟨h2, _⟩ | ⟨h2, _⟩
      · left; rw [List.foldl_cons, h, h2]
      · right; rw [List.foldl_cons, h, h2]; exact List.mem_cons_self x xs
    · right; exact List.mem_cons_of_mem x h

theorem listMinD_le {α : Type} [LinearOrder α] (d : α) {l : List α} {x : α} (hx : x ∈ l) :
    listMinD d l ≤ x := by
  cases l with
  | nil => cases hx
  | cons y ys =>
    rcases List.mem_cons.mp hx with h | h
    · subst h; exact foldl_min_le_init ys x
    · exact foldl_min_le_mem h y

theorem listMinD_mem {α : Type} [LinearOrder α] (d : α) {l : List α} (hl : l ≠ []) :
    listMinD d l ∈ l := by
  cases l with
  | nil => exact absurd rfl hl
  | cons y ys =>
    rcases foldl_min_mem ys y with h | h
    · rw [listMinD, h]; exact List.mem_cons_self y ys
    · rw [listMinD]; exact List.mem_cons_of_mem y h

theorem le_listMaxD {α : Type} [LinearOrder α] (d : α) {l : List α} {x : α} (hx : x ∈ l) :
    x ≤ listMaxD d l := by
  cases l with
  | nil => cases hx
  | cons y ys =>
    rcases List.mem_cons.mp hx with h | h
    · subst h; exact init_le_foldl_max ys x
    · exact mem_le_foldl_max h y

theorem listMaxD_mem {α : Type} [LinearOrder α] (d : α) {l : List α} (hl : l ≠ []) :
    listMaxD d l ∈ l := by
  cases l with
  | nil => exact absurd rfl hl
  | cons y ys =>
    rcases foldl_max_mem ys y with h | h
    · rw [listMaxD, h]; exact List.mem_cons_self y ys
    · rw [listMaxD]; exact List.mem_cons_of_mem y h

theorem listMinD_congr {α : Type} [LinearOrder α] (d : α) {l m : List α}
    (hl : l ≠ []) (hm : m ≠ []) (hmem : ∀ x, x ∈ l ↔ x ∈ m) :
    listMinD d l = listMinD d m :=
  le_antisymm (listMinD_le d ((hmem _).mpr (listMinD_mem d hm)))
    (listMinD_le d ((hmem _).mp (listMinD_mem d hl)))

theorem listMaxD_congr {α : Type} [LinearOrder α] (d : α) {l m : List α}
    (hl : l ≠ []) (hm : m ≠ []) (hmem : ∀ x, x ∈ l ↔ x ∈ m) :
    listMaxD d l = listMaxD d m :=
  le_antisymm (le_listMaxD d ((hmem _).mp (listMaxD_mem d hl)))
    (le_listMaxD d ((hmem _).mpr (listMaxD_mem d hm)))

theorem listMinD_le_listMaxD {α : Type} [LinearOrder α] (d : α) {l : List α} (hl : l ≠ []) :
    listMinD d l ≤ listMaxD d l :=
  listMinD_le d (listMaxD_mem d hl)

theorem foldl_min_map {α β : Type} [LinearOrder α] [LinearOrder β] (f : α → β)
    (hf : ∀ a b, f (min a b) = min (f a) (f b)) (l : List α) (a : α) :
    (l.map f).foldl min (f a) = f (l.foldl min a) := by
  induction l generalizing a with
  | nil => rfl
  | cons x xs ih => simp only [List.map_cons, List.foldl_cons, ← hf, ih]

theorem foldl_max_map {α β : Type} [LinearOrder α] [LinearOrder β] (f : α → β)
    (hf : ∀ a b, f (max a b) = max (f a) (f b)) (l : List α) (a : α) :
    (l.map f).foldl max (f a) = f (l.foldl max a) := by
  induction l generalizing a with
  | nil => rfl
  | cons x xs ih => simp only [List.map_cons, List.foldl_cons, ← hf, ih]

theorem listMinD_map {α β : Type} [LinearOrder α] [LinearOrder β] (f : α → β) (d : α) (d2 : β)
    (hf : ∀ a b, f (min a b) = min (f a) (f b)) {l : List α} (hl : l ≠ []) :
    listMinD d2 (l.map f) = f (listMinD d l) := by
  cases l with
  | nil => exact absurd rfl hl
  | cons x xs => simp only [List.map_cons, listMinD]; exact foldl_min_map f hf xs x

theorem listMaxD_map {α β : Type} [LinearOrder α] [LinearOrder β] (f : α → β) (d : α) (d2 : β)
    (hf : ∀ a b, f (max a b) = max (f a) (f b)) {l : List α} (hl : l ≠ []) :
    listMaxD d2 (l.map f) = f (listMaxD d l) := by
  cases l with
  | nil => exact absurd rfl hl
  | cons x xs => simp only [List.map_cons, listMaxD]; exact foldl_max_map f hf xs x

/-! Lemmas about mathRound. -/

theorem mathRound_intCast (n : ℤ) : mathRound ((n : ℤ) : ℚ) = n := by
  rw [mathRound, add_comm, Int.floor_add_int]
  norm_num

theorem mathRound_mono {a b : ℚ} (h : a ≤ b) : mathRound a ≤ mathRound b :=
  Int.floor_le_floor (by linarith)

theorem mathRound_min (a b : ℚ) : mathRound (min a b) = min (mathRound a) (mathRound b) := by
  rcases le_total a b with h | h
  · rw [min_eq_left h, min_eq_left (mathRound_mono h)]
  · rw [min_eq_right h, min_eq_right (mathRound_mono h)]

theorem mathRound_max (a b : ℚ) : mathRound (max a b) = max (mathRound a) (mathRound b) := by
  rcases le_total a b with h | h
  · rw [max_eq_right h, max_eq_right (mathRound_mono h)]
  · rw [max_eq_left h, max_eq_left (mathRound_mono h)]

theorem mathRound_add_intCast (q : ℚ) (n : ℤ) : mathRound (q + (n : ℚ)) = mathRound q + n := by
  rw [mathRound, mathRound, add_right_comm, Int.floor_add_int]

theorem mathRound_nonneg {q : ℚ} (h : -(1/2) ≤ q) : 0 ≤ mathRound q := by
  rw [mathRound, Int.le_floor]
  push_cast
  linarith

theorem mathRound_neg {q : ℚ} (h : q < -(1/2)) : mathRound q < 0 := by
  rw [mathRound, Int.floor_lt]
  push_cast
  linarith

theorem roundPoint_intCast (p : IntPoint) : roundPoint ((p.1 : ℚ), (p.2 : ℚ)) = p := by
  rw [roundPoint, mathRound_intCast, mathRound_intCast]

/-! Lemmas about dedupConsecutive. -/

theorem mem_of_mem_dedupAfter {α : Type} [DecidableEq α] {prev : α} {l : List α} {a : α}
    (h : a ∈ dedupAfter prev l) : a ∈ l := by
  induction l generalizing prev with
  | nil => cases h
  | cons q rest ih =>
    rw [dedupAfter] at h
    split_ifs at h with he
    · exact List.mem_cons_of_mem q (@ih prev h)
    · rcases List.mem_cons.mp h with rfl | h2
      · exact List.mem_cons_self a rest
      · exact List.mem_cons_of_mem q (@ih q h2)

theorem mem_dedupAfter_or_eq {α : Type} [DecidableEq α] {prev a : α} {l : List α} (h : a ∈ l) :
    a = prev ∨ a ∈ dedupAfter prev l := by
  induction l generalizing prev with
  | nil => cases h
  | cons q rest ih =>
    rw [dedupAfter]
    split_ifs with he
    · rcases List.mem_cons.mp h with rfl | h2
      · left; exact he.symm
      · exact @ih prev h2
    · rcases List.mem_cons.mp h with rfl | h2
      · right; exact List.mem_cons_self a (dedupAfter a rest)
      · rcases @ih q h2 with rfl | h3
        · right; exact List.mem_cons_self a (dedupAfter a rest)
        · right; exact List.mem_cons_of_mem q h3

theorem mem_dedupConsecutive {α : Type} [DecidableEq α] {l : List α} {a : α} :
    a ∈ dedupConsecutive l ↔ a ∈ l := by
  cases l with
  | nil => exact Iff.rfl
  | cons p rest =>
    rw [dedupConsecutive]
    constructor
    · intro h
      rcases List.mem_cons.mp h with rfl | h2
      · exact List.mem_cons_self a rest
      · exact List.mem_cons_of_mem p (mem_of_mem_dedupAfter h2)
    · intro h
      rcases List.mem_cons.mp h with rfl | h2
      · exact List.mem_cons_self a (dedupAfter a rest)
      · rcases @mem_dedupAfter_or_eq _ _ p a rest h2 with rfl | h3
        · exact List.mem_cons_self a (dedupAfter a rest)
        · exact List.mem_cons_of_mem p h3

theorem chain_dedupAfter {α : Type} [DecidableEq α] (prev : α) (l : List α) :
    List.Chain (fun a b => a ≠ b) prev (dedupAfter prev l) := by
  induction l generalizing prev with
  | nil => exact List.Chain.nil
  | cons q rest ih =>
    rw [dedupAfter]
    split_ifs with he
    · exact @ih prev
    · exact List.Chain.cons he (@ih q)

theorem dedupAfter_of_chain {α : Type} [DecidableEq α] {prev : α} {l : List α}
    (h : List.Chain (fun a b => a ≠ b) prev l) : dedupAfter prev l = l := by
  induction l generalizing prev with
  | nil => rfl
  | cons q rest ih =>
    rcases List.chain_cons.mp h with ⟨hne, hrest⟩
    rw [dedupAfter, if_neg hne, @ih q hrest]

theorem dedupConsecutive_idem {α : Type} [DecidableEq α] (l : List α) :
    dedupConsecutive (dedupConsecutive l) = dedupConsecutive l := by
  cases l with
  | nil => rfl
  | cons p rest =>
    rw [dedupConsecutive, dedupConsecutive, dedupAfter_of_chain (chain_dedupAfter p rest)]

theorem dedupAfter_getLastQn {α : Type} [DecidableEq α] (prev : α) (l : List α) :
    (prev :: dedupAfter prev l).getLast? = (prev :: l).getLast? := by
  induction l generalizing prev with
  | nil => rfl
  | cons q rest ih =>
    rw [dedupAfter]
    split_ifs with he
    · rw [@ih prev]
      subst he
      cases rest with
      | nil => rfl
      | cons r rs => simp only [List.getLast?_cons_cons]
    · rw [List.getLast?_cons_cons, @ih q, List.getLast?_cons_cons]

theorem dedupConsecutive_getLastQn {α : Type} [DecidableEq α] (l : List α) :
    (dedupConsecutive l).getLast? = l.getLast? := by
  cases l with
  | nil => rfl
  | cons p rest => rw [dedupConsecutive, dedupAfter_getLastQn]

theorem toFinset_dedupConsecutive {α : Type} [DecidableEq α] (l : List α) :
    (dedupConsecutive l).toFinset = l.toFinset := by
  ext a
  simp only [List.mem_toFinset]
  exact mem_dedupConsecutive

theorem card_le_length_dedupConsecutive {α : Type} [DecidableEq α] (l : List α) :
    l.toFinset.card ≤ (dedupConsecutive l).length := by
  rw [← toFinset_dedupConsecutive]
  exact List.toFinset_card_le (dedupConsecutive l)

/-! Bridge lemmas between checkPolygon and its integer-level tail. -/

theorem pointsEqual_iff {α : Type} [DecidableEq α] (p q : α × α) :
    pointsEqual p q = true ↔ p = q := by
  rw [pointsEqual, Bool.and_eq_true, decide_eq_true_iff, decide_eq_true_iff, Prod.ext_iff]

theorem finiteCoordPair_ratRaw (p : ℚ × ℚ) : finiteCoordPair (ratRaw p) = some p := rfl

theorem finiteCoordPair_eq_none_iff (p : RawPoint) :
    finiteCoordPair p = none ↔ p.1 = none ∨ p.2 = none := by
  rcases p with ⟨xo, yo⟩
  cases xo <;> cases yo <;> simp [finiteCoordPair]

theorem finitePoints_ratPolyRaw (l : List (ℚ × ℚ)) : finitePoints (ratPolyRaw l) = some l := by
  induction l with
  | nil => rfl
  | cons p rest ih =>
    show finitePoints (ratRaw p :: ratPolyRaw rest) = some (p :: rest)
    rw [finitePoints, finiteCoordPair_ratRaw, ih]

theorem finitePoints_eq_none_iff (l : List RawPoint) :
    finitePoints l = none ↔ ∃ p ∈ l, p.1 = none ∨ p.2 = none := by
  induction l with
  | nil => simp [finitePoints]
  | cons p rest ih =>
    rw [finitePoints]
    cases hp : finiteCoordPair p with
    | none =>
      simp only [List.mem_cons]
      constructor
      · intro _
        exact ⟨p, Or.inl rfl, (finiteCoordPair_eq_none_iff p).mp hp⟩
      · intro _
        trivial
    | some q =>
      cases hr : finitePoints rest with
      | none =>
        simp only [List.mem_cons]
        constructor
        · intro _
          obtain ⟨x, hx, hbad⟩ := ih.mp hr
          exact ⟨x, Or.inr hx, hbad⟩
        · intro _
          trivial
      | some m =>
        simp only [List.mem_cons]
        constructor
        · intro hc
          cases hc
        · rintro ⟨x, hx | hx, hbad⟩
          · subst hx
            rw [(finiteCoordPair_eq_none_iff x).mpr hbad] at hp
            cases hp
          · rw [ih.mpr ⟨x, hx, hbad⟩] at hr
            cases hr

theorem finitePoints_length {l : List RawPoint} {pts : List (ℚ × ℚ)}
    (h : finitePoints l = some pts) : pts.length = l.length := by
  induction l generalizing pts with
  | nil =>
    rw [finitePoints] at h
    cases h
    rfl
  | cons p rest ih =>
    rw [finitePoints] at h
    cases hp : finiteCoordPair p with
    | none => rw [hp] at h; cases h
    | some q =>
      rw [hp] at h
      cases hr : finitePoints rest with
      | none => rw [hr] at h; cases h
      | some m =>
        rw [hr] at h
        cases h
        simp [ih hr]

theorem checkPolygon_of_finite {polygon : List RawPoint} {pts : List (ℚ × ℚ)} {ms : ℤ}
    (hfp : finitePoints polygon = some pts) :
    checkPolygon polygon ms = checkRounded (pts.map roundPoint) ms := by
  rw [checkPolygon, hfp]

theorem checkPolygon_ratPolyRaw (l : List (ℚ × ℚ)) (ms : ℤ) :
    checkPolygon (ratPolyRaw l) ms = checkRounded (l.map roundPoint) ms := by
  rw [checkPolygon, finitePoints_ratPolyRaw]

theorem intPolyRaw_eq_ratPolyRaw (l : List IntPoint) : intPolyRaw l = ratPolyRaw (intPolyQ l) := by
  rw [intPolyRaw, ratPolyRaw, intPolyQ, List.map_map]
  rfl

theorem intPolyQ_map_roundPoint (l : List IntPoint) : (intPolyQ l).map roundPoint = l := by
  induction l with
  | nil => rfl
  | cons p rest ih =>
    rw [intPolyQ, List.map_cons, List.map_cons, ← intPolyQ, ih, roundPoint_intCast]

theorem checkPolygon_intPolyRaw (l : List IntPoint) (ms : ℤ) :
    checkPolygon (intPolyRaw l) ms = checkRounded l ms := by
  rw [intPolyRaw_eq_ratPolyRaw, checkPolygon_ratPolyRaw, intPolyQ_map_roundPoint]

theorem dedupConsecutive_eq_nil_iff {α : Type} [DecidableEq α] (l : List α) :
    dedupConsecutive l = [] ↔ l = [] := by
  cases l with
  | nil => simp [dedupConsecutive]
  | cons p rest => simp [dedupConsecutive]

theorem getSize_congr {l m : List IntPoint} (hl : l ≠ []) (hm : m ≠ [])
    (hmem : ∀ x, x ∈ l ↔ x ∈ m) : getSize l = getSize m := by
  have hfst : ∀ x, x ∈ l.map Prod.fst ↔ x ∈ m.map Prod.fst := by
    intro x
    simp only [List.mem_map]
    constructor
    · rintro ⟨p, hp, rfl⟩; exact ⟨p, (hmem p).mp hp, rfl⟩
    · rintro ⟨p, hp, rfl⟩; exact ⟨p, (hmem p).mpr hp, rfl⟩
  have hsnd : ∀ x, x ∈ l.map Prod.snd ↔ x ∈ m.map Prod.snd := by
    intro x
    simp only [List.mem_map]
    constructor
    · rintro ⟨p, hp, rfl⟩; exact ⟨p, (hmem p).mp hp, rfl⟩
    · rintro ⟨p, hp, rfl⟩; exact ⟨p, (hmem p).mpr hp, rfl⟩
  have hl1 : l.map Prod.fst ≠ [] := by simpa using hl
  have hm1 : m.map Prod.fst ≠ [] := by simpa using hm
  have hl2 : l.map Prod.snd ≠ [] := by simpa using hl
  have hm2 : m.map Prod.snd ≠ [] := by simpa using hm
  rw [getSize, getSize, listMinD_congr 0 hl1 hm1 hfst, listMaxD_congr 0 hl1 hm1 hfst,
    listMinD_congr 0 hl2 hm2 hsnd, listMaxD_congr 0 hl2 hm2 hsnd]

theorem getSize_dedupConsecutive (l : List IntPoint) :
    getSize (dedupConsecutive l) = getSize l := by
  cases hl : l with
  | nil => rfl
  | cons p rest =>
    refine getSize_congr ?_ ?_ ?_
    · rw [Ne, dedupConsecutive_eq_nil_iff]; exact List.cons_ne_nil p rest
    · exact List.cons_ne_nil p rest
    · intro x; exact mem_dedupConsecutive

/-! Behaviour of checkRounded on each failure class. -/

theorem any_neg_eq_false {L : List IntPoint} (h : ∀ p ∈ L, 0 ≤ p.1 ∧ 0 ≤ p.2) :
    (L.any (fun p => decide (p.1 < 0) || decide (p.2 < 0))) = false := by
  rw [List.any_eq_false]
  intro p hp
  obtain ⟨h1, h2⟩ := h p hp
  simp [not_lt.mpr h1, not_lt.mpr h2]

theorem checkRounded_neg {L : List IntPoint} {p : IntPoint} (hp : p ∈ L)
    (hneg : p.1 < 0 ∨ p.2 < 0) (ms : ℤ) : checkRounded L ms = .error .negativeCoords := by
  have hany : (L.any (fun p => decide (p.1 < 0) || decide (p.2 < 0))) = true := by
    rw [List.any_eq_true]
    refine ⟨p, hp, ?_⟩
    rcases hneg with h | h <;> simp [h]
  rw [checkRounded, if_pos hany]

theorem checkRounded_ne_neg {L : List IntPoint} (h : ∀ p ∈ L, 0 ≤ p.1 ∧ 0 ≤ p.2) (ms : ℤ) :
    checkRounded L ms ≠ .error .negativeCoords := by
  rw [checkRounded, if_neg (by simp [any_neg_eq_false h])]
  split
  · simp
  · split_ifs <;> simp

theorem toFinset_card_le_of_closed {α : Type} [DecidableEq α] (p0 : α) (rest : List α)
    (hrest : rest ≠ [])
    (hcl : p0 = (p0 :: rest).getLast (List.cons_ne_nil p0 rest)) :
    (p0 :: rest).toFinset.card ≤ rest.length := by
  have hmem0 : p0 ∈ (p0 :: rest).dropLast := by
    cases rest with
    | nil => exact absurd rfl hrest
    | cons r rs =>
      rw [List.dropLast_cons₂]
      exact List.mem_cons_self p0 _
  have hsub : (p0 :: rest).toFinset = ((p0 :: rest).dropLast).toFinset := by
    conv_lhs => rw [← List.dropLast_append_getLast (List.cons_ne_nil p0 rest)]
    rw [List.toFinset_append, ← hcl]
    refine Finset.union_eq_left.mpr ?_
    intro a ha
    rw [List.mem_toFinset] at ha ⊢
    rw [List.mem_singleton] at ha
    rw [ha]
    exact hmem0
  calc (p0 :: rest).toFinset.card
      = ((p0 :: rest).dropLast).toFinset.card := by rw [hsub]
    _ ≤ ((p0 :: rest).dropLast).length := List.toFinset_card_le _
    _ = rest.length := by rw [List.length_dropLast, List.length_cons]; rfl

theorem getD_length_pred {α : Type} {l : List α} (h : l ≠ []) (x : α) :
    l.getD (l.length - 1) x = l.getLast h := by
  have hlt : l.length - 1 < l.length := by
    cases l with
    | nil => exact absurd rfl h
    | cons a as => simp
  rw [List.getD_eq_getElem l x hlt, List.getLast_eq_getElem]

theorem checkRounded_ok (L : List IntPoint) (ms : ℤ)
    (hnn : ∀ p ∈ L, 0 ≤ p.1 ∧ 0 ≤ p.2)
    (hcard : 3 ≤ L.toFinset.card)
    (hw : ms ≤ (getSize L).1) (hh : ms ≤ (getSize L).2)
    (hcap : (dedupConsecutive L).length ≤ polygonMaxPoints ∨
      ((dedupConsecutive L).length = polygonMaxPoints + 1 ∧
        (dedupConsecutive L).head? = (dedupConsecutive L).getLast?)) :
    checkRounded L ms = .ok (dedupConsecutive L) := by
  have hLne : L ≠ [] := by
    intro hnil
    rw [hnil] at hcard
    simp at hcard
  rw [checkRounded, if_neg (by simp [any_neg_eq_false hnn])]
  split
  · next hnil => exact absurd ((dedupConsecutive_eq_nil_iff L).mp hnil) hLne
  · next p0 rest heq =>
    have hcard2 : 3 ≤ (p0 :: rest).toFinset.card := by
      rw [← heq, toFinset_dedupConsecutive]
      exact hcard
    have hlen3 : 3 ≤ (p0 :: rest).length :=
      le_trans hcard2 (List.toFinset_card_le _)
    have hfew : ¬ ((p0 :: rest).length <
        3 + if pointsEqual p0 ((p0 :: rest).getLast (List.cons_ne_nil p0 rest)) then 1 else 0) := by
      split_ifs with hcl
      · intro hlt
        have hlen : (p0 :: rest).length = 3 := by omega
        have hrne : rest ≠ [] := by
          intro hrnil
          rw [hrnil] at hlen
          simp at hlen
        have := toFinset_card_le_of_closed p0 rest hrne ((pointsEqual_iff _ _).mp hcl)
        have hrl : rest.length = 2 := by
          rw [List.length_cons] at hlen
          omega
        omega
      · omega
    rw [if_neg hfew]
    have hcap2 : (p0 :: rest).length ≤ polygonMaxPoints ∨
        ((p0 :: rest).length = polygonMaxPoints + 1 ∧
          (p0 :: rest).head? = (p0 :: rest).getLast?) := heq ▸ hcap
    have hmany : ¬ (polygonMaxPoints + 1 < (p0 :: rest).length ∨
        ((p0 :: rest).length = polygonMaxPoints + 1 ∧
          ¬ (pointsEqual p0 ((p0 :: rest).getD polygonMaxPoints p0) = true))) := by
      have hne : (p0 :: rest) ≠ [] := List.cons_ne_nil p0 rest
      rcases hcap2 with hle | ⟨hlen, hfl⟩
      · push_neg
        constructor
        · omega
        · intro habs
          omega
      · push_neg
        refine ⟨by omega, fun _ => ?_⟩
        have hgl : (p0 :: rest).getLast? = some ((p0 :: rest).getLast hne) :=
          List.getLast?_eq_getLast _ hne
        have hhd : (p0 :: rest).head? = some p0 := rfl
        have hp0 : p0 = (p0 :: rest).getLast hne := by
          have hx := hfl
          rw [hhd, hgl] at hx
          exact Option.some_injective _ hx
        have hidx : polygonMaxPoints = (p0 :: rest).length - 1 := by
          rw [hlen]
          rfl
        rw [pointsEqual_iff, hidx, getD_length_pred hne]
        exact hp0
    rw [if_neg hmany]
    have hsz : getSize (p0 :: rest) = getSize L := by
      rw [← heq, getSize_dedupConsecutive]
    have hsmall : ¬ ((getSize (p0 :: rest)).2 < ms ∨ (getSize (p0 :: rest)).1 < ms) := by
      rw [hsz]
      omega
    rw [if_neg hsmall, heq]

/-! Rounding commutes with the bounding size computation. -/

theorem mathRound_zero : mathRound 0 = 0 := by
  rw [mathRound]
  norm_num

theorem getSize_map_roundPoint {L : List (ℚ × ℚ)} (hLne : L ≠ []) :
    getSize (L.map roundPoint) =
      (mathRound (listMaxD 0 (L.map Prod.fst)) - mathRound (listMinD 0 (L.map Prod.fst)),
       mathRound (listMaxD 0 (L.map Prod.snd)) - mathRound (listMinD 0 (L.map Prod.snd))) := by
  have hx : (L.map roundPoint).map Prod.fst = (L.map Prod.fst).map mathRound := by
    rw [List.map_map, List.map_map]
    rfl
  have hy : (L.map roundPoint).map Prod.snd = (L.map Prod.snd).map mathRound := by
    rw [List.map_map, List.map_map]
    rfl
  have hxne : L.map Prod.fst ≠ [] := by simpa using hLne
  have hyne : L.map Prod.snd ≠ [] := by simpa using hLne
  rw [getSize, hx, hy, listMinD_map mathRound 0 0 mathRound_min hxne,
    listMaxD_map mathRound 0 0 mathRound_max hxne,
    listMinD_map mathRound 0 0 mathRound_min hyne,
    listMaxD_map mathRound 0 0 mathRound_max hyne]

/-- C4 counterexample: c4Bad satisfies every hypothesis of the claim (at
least 3 distinct points, non-negative integer coordinates, bounding width
and height at least minSize = 2) and yet checkPolygon fails on it, because
the claim omits the distinct point cap of checkPolygon. -/
theorem C4_counterexample :
    3 ≤ c4Bad.toFinset.card ∧
    (∀ p ∈ c4Bad, 0 ≤ p.1 ∧ 0 ≤ p.2) ∧
    2 ≤ (getSize c4Bad).1 ∧ 2 ≤ (getSize c4Bad).2 ∧
    checkPolygon (intPolyRaw c4Bad) 2 = .error .tooManyPoints := by
  refine ⟨by decide, by decide, by decide, by decide, ?_⟩
  rw [checkPolygon_intPolyRaw]
  decide

/-- C4 (amended): for every polygon with integer coordinates that has at
least 3 distinct points, only non-negative coordinates, bounding width and
height at least minSize, and whose consecutive-deduplicated form respects
the distinct point cap (at most 163 points, or 164 when the first and last
point coincide), checkPolygon succeeds, returns the deduplicated polygon,
and is idempotent: running checkPolygon on its own output returns that
output unchanged. -/
theorem C4_success_and_idempotent (L : List IntPoint) (ms : ℤ)
    (hcard : 3 ≤ L.toFinset.card)
    (hnn : ∀ p ∈ L, 0 ≤ p.1 ∧ 0 ≤ p.2)
    (hw : ms ≤ (getSize L).1) (hh : ms ≤ (getSize L).2)
    (hcap : (dedupConsecutive L).length ≤ polygonMaxPoints ∨
      ((dedupConsecutive L).length = polygonMaxPoints + 1 ∧
        (dedupConsecutive L).head? = (dedupConsecutive L).getLast?)) :
    checkPolygon (intPolyRaw L) ms = .ok (dedupConsecutive L) ∧
    checkPolygon (intPolyRaw (dedupConsecutive L)) ms = .ok (dedupConsecutive L) := by
  constructor
  · rw [checkPolygon_intPolyRaw]
    exact checkRounded_ok L ms hnn hcard hw hh hcap
  · rw [checkPolygon_intPolyRaw]
    have h1 : ∀ p ∈ dedupConsecutive L, 0 ≤ p.1 ∧ 0 ≤ p.2 := by
      intro p hp
      exact hnn p (mem_dedupConsecutive.mp hp)
    have h2 : 3 ≤ (dedupConsecutive L).toFinset.card := by
      rw [toFinset_dedupConsecutive]
      exact hcard
    have h3 : getSize (dedupConsecutive L) = getSize L := getSize_dedupConsecutive L
    have h4 : dedupConsecutive (dedupConsecutive L) = dedupConsecutive L :=
      dedupConsecutive_idem L
    have := checkRounded_ok (dedupConsecutive L) ms h1 h2 (by rw [h3]; exact hw)
      (by rw [h3]; exact hh) (by rw [h4]; exact hcap)
    rw [h4] at this
    exact this

/-- C4 witness: the amended theorem applied to a concrete valid square. -/
theorem C4_witness :
    checkPolygon (intPolyRaw [(0, 0), (10, 0), (10, 10), (0, 10)]) 2 =
      .ok (dedupConsecutive [(0, 0), (10, 0), (10, 10), (0, 10)]) ∧
    checkPolygon (intPolyRaw (dedupConsecutive [(0, 0), (10, 0), (10, 10), (0, 10)])) 2 =
      .ok (dedupConsecutive [(0, 0), (10, 0), (10, 10), (0, 10)]) :=
  C4_success_and_idempotent [(0, 0), (10, 0), (10, 10), (0, 10)] 2
    (by decide) (by decide) (by decide) (by decide) (by decide)

/-! Claim C5. -/

theorem mathRound_eq_zero {q : ℚ} (h1 : -(1/2) ≤ q) (h2 : q < 1/2) : mathRound q = 0 := by
  rw [mathRound, Int.floor_eq_zero_iff, Set.mem_Ico]
  constructor <;> linarith

theorem c5Tail_round : c5Tail.map roundPoint = List.replicate 162 ((0 : ℤ), (20 : ℤ)) := by
  rw [List.eq_replicate_iff]
  constructor
  · rw [List.length_map, c5Tail, List.length_map, List.length_range]
  · intro b hb
    rw [List.mem_map] at hb
    obtain ⟨p, hp, rfl⟩ := hb
    rw [c5Tail, List.mem_map] at hp
    obtain ⟨k, hk, rfl⟩ := hp
    rw [List.mem_range] at hk
    have heps1 : (0 : ℚ) < ((k : ℚ) + 1) / 1000 := by positivity
    have heps2 : ((k : ℚ) + 1) / 1000 < 1/2 := by
      rw [div_lt_iff₀ (by norm_num)]
      have hk2 : (k : ℚ) ≤ 161 := by
        have : k ≤ 161 := by omega
        exact_mod_cast this
      linarith
    have h2 : mathRound (20 + ((k : ℚ) + 1) / 1000) = 20 := by
      have hre : (20 : ℚ) + ((k : ℚ) + 1) / 1000 = (((k : ℚ) + 1) / 1000) + ((20 : ℤ) : ℚ) := by
        push_cast
        ring
      rw [hre, mathRound_add_intCast, mathRound_eq_zero (by linarith) heps2]
      norm_num
    rw [roundPoint]
    simp only []
    rw [h2, mathRound_eq_zero (by norm_num) (by norm_num)]

theorem c5Input_round : c5Input.map roundPoint =
    [(0, 0), (20, 0), (20, 20)] ++ List.replicate 162 ((0 : ℤ), (20 : ℤ)) := by
  rw [c5Input, List.map_append, c5Tail_round]
  congr 1
  norm_num [roundPoint, mathRound, Prod.ext_iff]

theorem c5Tail_mem {p : ℚ × ℚ} (hp : p ∈ c5Tail) : p.1 = 0 ∧ 20 < p.2 := by
  rw [c5Tail, List.mem_map] at hp
  obtain ⟨k, _, rfl⟩ := hp
  refine ⟨rfl, ?_⟩
  have : (0 : ℚ) < ((k : ℚ) + 1) / 1000 := by positivity
  show (20 : ℚ) < 20 + ((k : ℚ) + 1) / 1000
  linarith

theorem c5Tail_nodup : c5Tail.Nodup := by
  rw [c5Tail]
  refine List.Nodup.map ?_ (List.nodup_range 162)
  intro a b hab
  rw [Prod.ext_iff] at hab
  obtain ⟨_, h2⟩ := hab
  have h3 : ((a : ℚ) + 1) / 1000 = ((b : ℚ) + 1) / 1000 := by
    simp only [] at h2
    linarith
  have h4 : (a : ℚ) = (b : ℚ) := by
    field_simp at h3
    linarith
  exact_mod_cast h4

theorem c5Input_nodup : c5Input.Nodup := by
  rw [c5Input, List.nodup_append]
  refine ⟨?_, c5Tail_nodup, ?_⟩
  · norm_num [List.nodup_cons, List.mem_cons, Prod.ext_iff]
  · intro a ha hb
    have hc := c5Tail_mem hb
    rw [List.mem_cons, List.mem_cons, List.mem_singleton] at ha
    rcases ha with rfl | rfl | rfl
    · norm_num at hc
    · norm_num at hc
    · norm_num at hc

theorem c5Input_card : c5Input.toFinset.card = 165 := by
  rw [List.toFinset_card_of_nodup c5Input_nodup, c5Input, List.length_append, c5Tail,
    List.length_map, List.length_range]
  norm_num

/-- C5 counterexample: an input with 165 pairwise distinct points on which
checkPolygon nevertheless succeeds, because rounding and consecutive
deduplication shrink it to 4 distinct integer points; the claim as stated
(any input with 165 distinct points fails) is therefore false. -/
theorem C5_counterexample :
    c5Input.toFinset.card = 165 ∧
    checkPolygon (ratPolyRaw c5Input) 2 = .ok [(0, 0), (20, 0), (20, 20), (0, 20)] := by
  refine ⟨c5Input_card, ?_⟩
  rw [checkPolygon_ratPolyRaw, c5Input_round]
  decide

theorem capConclusion_of_not_many {p0 : IntPoint} {rest : List IntPoint}
    (hmany : ¬ (polygonMaxPoints + 1 < (p0 :: rest).length ∨
      ((p0 :: rest).length = polygonMaxPoints + 1 ∧
        ¬ (pointsEqual p0 ((p0 :: rest).getD polygonMaxPoints p0) = true)))) :
    (p0 :: rest).length ≤ polygonMaxPoints ∨
      ((p0 :: rest).length = polygonMaxPoints + 1 ∧
        (p0 :: rest).head? = (p0 :: rest).getLast?) := by
  push_neg at hmany
  obtain ⟨h2a, h2b⟩ := hmany
  by_cases hlen : (p0 :: rest).length = polygonMaxPoints + 1
  · right
    refine ⟨hlen, ?_⟩
    have hne : (p0 :: rest) ≠ [] := List.cons_ne_nil p0 rest
    have hpe := h2b hlen
    rw [pointsEqual_iff] at hpe
    rw [List.getLast?_eq_getLast _ hne]
    have hidx : polygonMaxPoints = (p0 :: rest).length - 1 := by
      rw [hlen]
      rfl
    rw [hidx, getD_length_pred hne] at hpe
    rw [← hpe]
    rfl
  · left
    omega

/-- C5 (amended): checkPolygon fails on the 2-point input [[0,0],[5,5]]; on
any input with 165 distinct points whose coordinates are integers; on any
polygon whose bounding box is exactly 1 by 1 when minSize is 2; and on any
polygon containing a non-finite coordinate.  Moreover every accepted
polygon respects the cap: after deduplication at most 163 distinct points
remain, a 164th being allowed only when the first and last points are
equal. -/
theorem C5_failure_modes :
    checkPolygon (ratPolyRaw [(0, 0), (5, 5)]) 2 = .error .tooFewPoints ∧
    (∀ L : List IntPoint, 165 ≤ L.toFinset.card →
      ∃ f, checkPolygon (intPolyRaw L) 2 = .error f) ∧
    (∀ L : List (ℚ × ℚ), getSizeQ L = (1, 1) →
      ∃ f, checkPolygon (ratPolyRaw L) 2 = .error f) ∧
    (∀ (polygon : List RawPoint) (ms : ℤ), (∃ p ∈ polygon, p.1 = none ∨ p.2 = none) →
      checkPolygon polygon ms = .error .typeError) ∧
    (∀ (polygon : List RawPoint) (ms : ℤ) (result : List IntPoint),
      checkPolygon polygon ms = .ok result →
      result.length ≤ polygonMaxPoints ∨
        (result.length = polygonMaxPoints + 1 ∧ result.head? = result.getLast?)) := by
  refine ⟨?_, ?_, ?_, ?_, ?_⟩
  · norm_num [checkPolygon, checkRounded, ratPolyRaw, ratRaw, finitePoints, finiteCoordPair,
      roundPoint, mathRound, dedupConsecutive, dedupAfter, pointsEqual, getSize, listMinD,
      listMaxD, polygonMaxPoints, List.getLast, Prod.mk.injEq, -Prod.mk_zero_zero, -Prod.mk_one_one, List.getD]
  · intro L hL
    rw [checkPolygon_intPolyRaw, checkRounded]
    by_cases hneg : (L.any fun p => decide (p.1 < 0) || decide (p.2 < 0)) = true
    · exact ⟨.negativeCoords, by rw [if_pos hneg]⟩
    · rw [if_neg hneg]
      have hlen : 165 ≤ (dedupConsecutive L).length :=
        le_trans hL (card_le_length_dedupConsecutive L)
      split
      · exact ⟨.typeError, rfl⟩
      · next p0 rest heq =>
        rw [heq] at hlen
        have hfew : ¬ ((p0 :: rest).length <
            3 + if pointsEqual p0 ((p0 :: rest).getLast (List.cons_ne_nil p0 rest)) then 1
              else 0) := by
          split_ifs <;> omega
        rw [if_neg hfew]
        have hmany : polygonMaxPoints + 1 < (p0 :: rest).length ∨
            ((p0 :: rest).length = polygonMaxPoints + 1 ∧
              ¬ (pointsEqual p0 ((p0 :: rest).getD polygonMaxPoints p0) = true)) := by
          left
          rw [polygonMaxPoints]
          omega
        rw [if_pos hmany]
        exact ⟨.tooManyPoints, rfl⟩
  · intro L hsz
    have hLne : L ≠ [] := by
      intro h
      rw [h, getSizeQ] at hsz
      simp only [List.map_nil, listMinD, listMaxD, Prod.mk.injEq] at hsz
      norm_num at hsz
    rw [checkPolygon_ratPolyRaw, checkRounded]
    by_cases hneg : ((L.map roundPoint).any fun p => decide (p.1 < 0) || decide (p.2 < 0)) = true
    · exact ⟨.negativeCoords, by rw [if_pos hneg]⟩
    · rw [if_neg hneg]
      have hw1 : listMaxD 0 (L.map Prod.fst) - listMinD 0 (L.map Prod.fst) = 1 := by
        rw [getSizeQ] at hsz
        exact congrArg Prod.fst hsz
      have hh1 : listMaxD 0 (L.map Prod.snd) - listMinD 0 (L.map Prod.snd) = 1 := by
        rw [getSizeQ] at hsz
        exact congrArg Prod.snd hsz
      have hszr : getSize (L.map roundPoint) = (1, 1) := by
        rw [getSize_map_roundPoint hLne]
        have hx : listMaxD 0 (L.map Prod.fst) =
            listMinD 0 (L.map Prod.fst) + ((1 : ℤ) : ℚ) := by
          push_cast
          linarith
        have hy : listMaxD 0 (L.map Prod.snd) =
            listMinD 0 (L.map Prod.snd) + ((1 : ℤ) : ℚ) := by
          push_cast
          linarith
        rw [hx, hy, mathRound_add_intCast, mathRound_add_intCast]
        norm_num
      split
      · exact ⟨.typeError, rfl⟩
      · next p0 rest heq =>
        have hsz3 : getSize (p0 :: rest) = (1, 1) := by
          rw [← heq, getSize_dedupConsecutive, hszr]
        by_cases h1 : (p0 :: rest).length <
            3 + if pointsEqual p0 ((p0 :: rest).getLast (List.cons_ne_nil p0 rest)) then 1 else 0
        · rw [if_pos h1]
          exact ⟨.tooFewPoints, rfl⟩
        · rw [if_neg h1]
          by_cases h2 : polygonMaxPoints + 1 < (p0 :: rest).length ∨
              ((p0 :: rest).length = polygonMaxPoints + 1 ∧
                ¬ (pointsEqual p0 ((p0 :: rest).getD polygonMaxPoints p0) = true))
          · rw [if_pos h2]
            exact ⟨.tooManyPoints, rfl⟩
          · rw [if_neg h2, if_pos (by rw [hsz3]; norm_num)]
            exact ⟨.tooSmall, rfl⟩
  · intro polygon ms hbad
    rw [checkPolygon, (finitePoints_eq_none_iff polygon).mpr hbad]
  · intro polygon ms result h
    cases hfp : finitePoints polygon with
    | none =>
      rw [checkPolygon, hfp] at h
      cases h
    | some pts =>
      rw [checkPolygon_of_finite hfp, checkRounded] at h
      by_cases hneg :
          ((pts.map roundPoint).any fun p => decide (p.1 < 0) || decide (p.2 < 0)) = true
      · rw [if_pos hneg] at h
        cases h
      · rw [if_neg hneg] at h
        split at h
        · cases h
        · next p0 rest heq =>
          split_ifs at h <;> cases h <;> rename_i hmany hsize <;>
            exact capConclusion_of_not_many hmany

/-- C5 witness: the non-finite point clause of the amended claim applied to
a concrete input containing a NaN coordinate. -/
theorem C5_witness :
    checkPolygon [(none, some 0), (some 1, some 1), (some 2, some 0)] 2 = .error .typeError :=
  C5_failure_modes.2.2.2.1 [(none, some 0), (some 1, some 1), (some 2, some 0)] 2
    ⟨(none, some 0), by simp, Or.inl rfl⟩

/-! Claim C6. -/

/-- C6 counterexample: a checkPolygon failure (non-finite point) that raises
a TypeError and not an InvalidPolygonError, refuting the claim that every
failure of checkPolygon raises an InvalidPolygonError. -/
theorem C6_counterexample :
    checkPolygon [(none, some 0), (some 10, some 0), (some 10, some 10), (some 0, some 10)] 2 =
      .error .typeError ∧
    isInvalidPolygonError .typeError = false :=
  ⟨rfl, rfl⟩

/-- C6 (amended): every failure of checkPolygon is classified by the rule
that failed, but in two exception classes: the non-finite point case (and
the degenerate empty input) raises a TypeError, which is not an
InvalidPolygonError, while every other failure (negative coordinate, too
few distinct points, too many distinct points, too small) raises an
InvalidPolygonError carrying the violated rule. -/
theorem C6_failures_classified (polygon : List RawPoint) (ms : ℤ) (f : PolyFailure)
    (h : checkPolygon polygon ms = .error f) :
    (f = .typeError ∧ ((∃ p ∈ polygon, p.1 = none ∨ p.2 = none) ∨ polygon = [])) ∨
    (isInvalidPolygonError f = true ∧
      (f = .negativeCoords ∨ f = .tooFewPoints ∨ f = .tooManyPoints ∨ f = .tooSmall)) := by
  cases hfp : finitePoints polygon with
  | none =>
    rw [checkPolygon, hfp] at h
    cases h
    left
    exact ⟨rfl, Or.inl ((finitePoints_eq_none_iff polygon).mp hfp)⟩
  | some pts =>
    rw [checkPolygon_of_finite hfp, checkRounded] at h
    by_cases hneg :
        ((pts.map roundPoint).any fun p => decide (p.1 < 0) || decide (p.2 < 0)) = true
    · rw [if_pos hneg] at h
      cases h
      right
      exact ⟨rfl, Or.inl rfl⟩
    · rw [if_neg hneg] at h
      split at h
      · next hnil =>
        cases h
        left
        refine ⟨rfl, Or.inr ?_⟩
        have h1 : pts.map roundPoint = [] := (dedupConsecutive_eq_nil_iff _).mp hnil
        have h2 : pts = [] := List.map_eq_nil_iff.mp h1
        have h3 := finitePoints_length hfp
        rw [h2] at h3
        exact List.length_eq_zero.mp h3.symm
      · next p0 rest heq =>
        split_ifs at h <;> cases h <;> right <;> simp [isInvalidPolygonError]

/-- C6 witness: the classification applied to the too-few-points failure of
a concrete 2-point polygon. -/
theorem C6_witness :
    (PolyFailure.tooFewPoints = .typeError ∧
      ((∃ p ∈ ratPolyRaw [(0, 0), (5, 5)], p.1 = none ∨ p.2 = none) ∨
        ratPolyRaw [(0, 0), (5, 5)] = [])) ∨
    (isInvalidPolygonError .tooFewPoints = true ∧
      (PolyFailure.tooFewPoints = .negativeCoords ∨ PolyFailure.tooFewPoints = .tooFewPoints ∨
        PolyFailure.tooFewPoints = .tooManyPoints ∨ PolyFailure.tooFewPoints = .tooSmall)) :=
  C6_failures_classified (ratPolyRaw [(0, 0), (5, 5)]) 2 .tooFewPoints
    (by norm_num [checkPolygon, checkRounded, ratPolyRaw, ratRaw, finitePoints, finiteCoordPair,
      roundPoint, mathRound, dedupConsecutive, dedupAfter, pointsEqual, getSize, listMinD,
      listMaxD, polygonMaxPoints, List.getLast, Prod.mk.injEq, -Prod.mk_zero_zero, -Prod.mk_one_one, List.getD])

/-! Claim C10. -/

/-- C10: rounding happens before the non-negativity check of checkPolygon:
a polygon whose coordinates are all at least -1/2 is never rejected for
negative coordinates (each such coordinate rounds to 0 or higher), while
any polygon of finite points with a coordinate strictly below -1/2 raises
the negative-coordinate error; concretely, the polygon with first
coordinate -2/5 is accepted with that coordinate rounded to 0. -/
theorem C10_slightly_negative_accepted :
    (∀ (L : List (ℚ × ℚ)) (ms : ℤ), (∀ q ∈ L, -(1/2) ≤ q.1 ∧ -(1/2) ≤ q.2) →
      checkPolygon (ratPolyRaw L) ms ≠ .error .negativeCoords) ∧
    (∀ (L : List (ℚ × ℚ)) (ms : ℤ) (p : ℚ × ℚ), p ∈ L → (p.1 < -(1/2) ∨ p.2 < -(1/2)) →
      checkPolygon (ratPolyRaw L) ms = .error .negativeCoords) ∧
    checkPolygon (ratPolyRaw [(-2/5, 0), (10, 0), (10, 10), (0, 10)]) 2 =
      .ok [(0, 0), (10, 0), (10, 10), (0, 10)] := by
  refine ⟨?_, ?_, ?_⟩
  · intro L ms hall
    rw [checkPolygon_ratPolyRaw]
    apply checkRounded_ne_neg
    intro p hp
    rw [List.mem_map] at hp
    obtain ⟨q, hq, rfl⟩ := hp
    obtain ⟨h1, h2⟩ := hall q hq
    exact ⟨mathRound_nonneg h1, mathRound_nonneg h2⟩
  · intro L ms p hp hneg
    rw [checkPolygon_ratPolyRaw]
    refine checkRounded_neg (List.mem_map_of_mem roundPoint hp) ?_ ms
    rcases hneg with h | h
    · exact Or.inl (mathRound_neg h)
    · exact Or.inr (mathRound_neg h)
  · norm_num [checkPolygon, checkRounded, ratPolyRaw, ratRaw, finitePoints, finiteCoordPair,
      roundPoint, mathRound, dedupConsecutive, dedupAfter, pointsEqual, getSize, listMinD,
      listMaxD, polygonMaxPoints, List.getLast, Prod.mk.injEq, -Prod.mk_zero_zero, -Prod.mk_one_one, List.getD]

/-- C10 witness: a polygon whose first coordinate is exactly -1/2 is not
rejected for negative coordinates. -/
theorem C10_witness :
    checkPolygon (ratPolyRaw [(-(1/2), 0), (10, 0), (10, 10), (0, 10)]) 2 ≠
      .error .negativeCoords :=
  C10_slightly_negative_accepted.1 [(-(1/2), 0), (10, 0), (10, 10), (0, 10)] 2 (by norm_num)

/-! Claim C8. -/

theorem ratio_band {x e : ℚ} (he : 0 < e) (h1 : 4/5 ≤ x / e) (h2 : x / e ≤ 6/5) :
    4 * e ≤ 5 * x ∧ 5 * x ≤ 6 * e := by
  rw [le_div_iff₀ he] at h1
  rw [div_le_iff₀ he] at h2
  constructor <;> linarith

theorem ratio_band_rev {x e : ℚ} (he : 0 < e) (h1 : 4 * e ≤ 5 * x) (h2 : 5 * x ≤ 6 * e) :
    4/5 ≤ x / e ∧ x / e ≤ 6/5 := by
  constructor
  · rw [le_div_iff₀ he]
    linarith
  · rw [div_le_iff₀ he]
    linarith

/-- C8: checkImageSize succeeds exactly when the width ratio, the height
ratio and the area ratio between the actual and the expected size all lie
within the tolerance band [0.8, 1.2] (stated multiplied out over positive
expected dimensions); any failure carries the actual and expected sizes and
the source URL; concretely, an actual 100x100 against an expected 100x100
passes, while an actual 50x100 against an expected 100x100 fails with the
error payload carrying both sizes and the URL. -/
theorem C8_image_size_tolerance :
    (∀ (w h ew eh : ℚ) (url : String), 0 < ew → 0 < eh →
      (checkImageSize w h ew eh url = .ok () ↔
        (4 * ew ≤ 5 * w ∧ 5 * w ≤ 6 * ew ∧ 4 * eh ≤ 5 * h ∧ 5 * h ≤ 6 * eh ∧
          4 * (ew * eh) ≤ 5 * (w * h) ∧ 5 * (w * h) ≤ 6 * (ew * eh)))) ∧
    (∀ (w h ew eh : ℚ) (url : String), checkImageSize w h ew eh url ≠ .ok () →
      checkImageSize w h ew eh url =
        .error { actualWidth := w, actualHeight := h, expectedWidth := ew,
                 expectedHeight := eh, url := url }) ∧
    checkImageSize 100 100 100 100 "http://x/img" = .ok () ∧
    checkImageSize 50 100 100 100 "http://x/img" =
      .error { actualWidth := 50, actualHeight := 100, expectedWidth := 100,
               expectedHeight := 100, url := "http://x/img" } := by
  refine ⟨?_, ?_, ?_, ?_⟩
  · intro w h ew eh url hew heh
    have harea : (0 : ℚ) < ew * eh := mul_pos hew heh
    rw [checkImageSize]
    split_ifs with hc
    · simp only [List.any_cons, List.any_nil, Bool.or_false, Bool.or_eq_true,
        decide_eq_true_eq, imageWarningRatio] at hc
      norm_num at hc
      constructor
      · intro habs
        exact absurd habs (by simp)
      · intro hband
        exfalso
        obtain ⟨b1, b2, b3, b4, b5, b6⟩ := hband
        rcases hc with hb | hb | hb
        · rcases hb with hb | hb
          · obtain ⟨c1, _⟩ := ratio_band_rev hew b1 b2
            linarith
          · obtain ⟨_, c2⟩ := ratio_band_rev hew b1 b2
            linarith
        · rcases hb with hb | hb
          · obtain ⟨c1, _⟩ := ratio_band_rev heh b3 b4
            linarith
          · obtain ⟨_, c2⟩ := ratio_band_rev heh b3 b4
            linarith
        · rcases hb with hb | hb
          · obtain ⟨c1, _⟩ := ratio_band_rev harea b5 b6
            linarith
          · obtain ⟨_, c2⟩ := ratio_band_rev harea b5 b6
            linarith
    · simp only [List.any_cons, List.any_nil, Bool.or_false, Bool.or_eq_true,
        decide_eq_true_eq, imageWarningRatio] at hc
      push_neg at hc
      norm_num at hc
      obtain ⟨⟨h1, h2⟩, ⟨h3, h4⟩, h5, h6⟩ := hc
      obtain ⟨c1, c2⟩ := ratio_band hew h1 h2
      obtain ⟨c3, c4⟩ := ratio_band heh h3 h4
      obtain ⟨c5, c6⟩ := ratio_band harea h5 h6
      constructor
      · intro _
        exact ⟨c1, c2, c3, c4, c5, c6⟩
      · intro _
        rfl
  · intro w h ew eh url hne
    rw [checkImageSize]
    rw [checkImageSize] at hne
    split_ifs with hc
    · rfl
    · rw [if_neg hc] at hne
      exact absurd rfl hne
  · norm_num [checkImageSize, imageWarningRatio]
  · norm_num [checkImageSize, imageWarningRatio]

/-- C8 witness: the tolerance characterization applied to the matching
100x100 case. -/
theorem C8_witness :
    checkImageSize 100 100 100 100 "http://x/img" = .ok () ↔
      (4 * (100 : ℚ) ≤ 5 * 100 ∧ 5 * (100 : ℚ) ≤ 6 * 100 ∧ 4 * (100 : ℚ) ≤ 5 * 100 ∧
        5 * (100 : ℚ) ≤ 6 * 100 ∧ 4 * ((100 : ℚ) * 100) ≤ 5 * (100 * 100) ∧
        5 * ((100 : ℚ) * 100) ≤ 6 * (100 * 100)) :=
  C8_image_size_tolerance.1 100 100 100 100 "http://x/img" (by norm_num) (by norm_num)

theorem jsEndsWithSlash_ximg : jsEndsWithSlash "http://x/img" = false := by decide

/-- C9 counterexample: with a 100 by 100 image, no polygon, and requested
bounds width 100 and height 150 — both of which meet or exceed the source
box — the produced size clause is !67,100 and not full: the
exactly-one-strictly-exceeding rescale runs first, refuting the claim that
the size clause is full whenever both requested bounds meet or exceed the
source box. -/
theorem C9_counterexample :
    (100 : ℚ) ≥ 100 ∧ (150 : ℚ) ≥ 100 ∧
    iiifUri iiifExampleElement (some 100) (some 150) =
      .ok "http://x/img/full/!67,100/0/default.jpg" ∧
    iiifUri iiifExampleElement (some 100) (some 150) ≠
      .ok "http://x/img/full/full/0/default.jpg" := by
  have h3 : iiifUri iiifExampleElement (some 100) (some 150) =
      .ok "http://x/img/full/!67,100/0/default.jpg" := by
    norm_num [iiifUri, iiifRegion, iiifSizeClause, iiifSizePair, jsGTD, jsGeD, jsTruthyNum,
      normalizeBound, optNumStr, ratStr, iiifExampleElement, jsEndsWithSlash_ximg, mathRound]
    rw [if_neg (by decide)]
    rfl
  refine ⟨by norm_num, by norm_num, h3, ?_⟩
  rw [h3]
  decide

/-- C9 (amended): the region segment of iiifUri is full when the element
has no polygon, and also when the polygon bounding box already covers the
whole image; otherwise it is the x,y,w,h rendering of that box.  The size
clause is full when both requested bounds (absent counting as infinite)
meet or exceed the source box, provided it is not the case that exactly
one of them strictly exceeds it (otherwise both bounds are first rescaled
by the larger ratio and an explicit clause results, as the counterexample
shows); an explicit clause carries the aspect-preserving exclamation
prefix whenever both effective bounds are truthy.  Concretely, a 100 by
100 image with no polygon and requested width 50 yields a URI ending in
full, then 50 comma, then 0, then default.jpg. -/
theorem C9_region_and_size :
    (∀ (img : Image) (element : Element), element.polygon = none →
      (iiifRegion img element).1 = "full") ∧
    (∀ (img : Image) (element : Element) (poly : List (ℚ × ℚ)) (box : Box),
      element.polygon = some poly → boundingBox element true = .ok box →
      box.x ≤ 0 → box.y ≤ 0 → box.width ≥ img.width → box.height ≥ img.height →
      (iiifRegion img element).1 = "full") ∧
    (∀ (img : Image) (element : Element) (poly : List (ℚ × ℚ)) (box : Box),
      element.polygon = some poly → boundingBox element true = .ok box →
      ¬ (box.x ≤ 0 ∧ box.y ≤ 0 ∧ box.width ≥ img.width ∧ box.height ≥ img.height) →
      (iiifRegion img element).1 =
        ratStr box.x ++ "," ++ ratStr box.y ++ "," ++ ratStr box.width ++ "," ++
          ratStr box.height) ∧
    (∀ (box : Box) (w0 h0 : Option ℚ), jsGeD w0 box.width = true → jsGeD h0 box.height = true →
      jsGTD w0 box.width = jsGTD h0 box.height →
      iiifSizeClause box (iiifSizePair box w0 h0) = none) ∧
    (∀ (box : Box) (wh : Option ℚ × Option ℚ) (c : String), iiifSizeClause box wh = some c →
      jsTruthyNum wh.1 = true → jsTruthyNum wh.2 = true →
      c = "!" ++ optNumStr wh.1 ++ "," ++ optNumStr wh.2) ∧
    iiifUri iiifExampleElement (some 50) none = .ok "http://x/img/full/50,/0/default.jpg" := by
  refine ⟨?_, ?_, ?_, ?_, ?_, ?_⟩
  · intro img element h
    simp [iiifRegion, h]
  · intro img element poly box hpoly hbb h1 h2 h3 h4
    simp [iiifRegion, hpoly, hbb, h1, h2, h3, h4]
  · intro img element poly box hpoly hbb hcond
    simp only [iiifRegion, hpoly, hbb]
    rw [if_neg hcond]
  · intro box w0 h0 h1 h2 h3
    rw [iiifSizePair, if_neg (by rw [h3]; exact fun habs => habs rfl)]
    rw [iiifSizeClause]
    rw [if_pos (by rw [h1, h2]; rfl)]
  · intro box wh c h h1 h2
    rw [iiifSizeClause] at h
    split_ifs at h with hc hb
    all_goals first
      | (cases h; rfl)
      | exact absurd (by simp [h1, h2]) hb
  · norm_num [iiifUri, iiifRegion, iiifSizeClause, iiifSizePair, jsGTD, jsGeD, jsTruthyNum,
      normalizeBound, optNumStr, ratStr, iiifExampleElement, jsEndsWithSlash_ximg, mathRound]
    rw [if_neg (by decide)]
    rfl

/-- C9 witness: the no-polygon region clause applied to the concrete
example element. -/
theorem C9_witness :
    (iiifRegion { width := 100, height := 100, url := "http://x/img" } iiifExampleElement).1 =
      "full" :=
  C9_region_and_size.1 { width := 100, height := 100, url := "http://x/img" }
    iiifExampleElement rfl

/-! Lemmas about jsSplice and getChildIndex. -/

theorem jsSpliceStart_natCast {α : Type} (l : List α) (i : ℕ) (hi : i < l.length) :
    jsSpliceStart l (i : ℤ) = i := by
  rw [jsSpliceStart, if_neg (by omega)]
  omega

theorem jsSplice_eraseIdx {α : Type} (l : List α) (i : ℕ) (hi : i < l.length) :
    jsSplice l (i : ℤ) 1 [] = l.eraseIdx i := by
  rw [jsSplice, jsSpliceStart_natCast l i hi, List.eraseIdx_eq_take_drop_succ]
  simp

theorem getChildIndex_lt_length {children : List (Option Child)} {id : ChildId} {i : ℕ}
    (h : getChildIndex children id = (i : ℤ)) : i < children.length := by
  induction children generalizing i with
  | nil =>
    simp only [getChildIndex] at h
    omega
  | cons oc rest ih =>
    simp only [getChildIndex] at h
    by_cases h1 : childMatches oc id = true
    · rw [if_pos h1] at h
      simp only [List.length_cons]
      omega
    · rw [if_neg h1] at h
      by_cases h2 : getChildIndex rest id < 0
      · rw [if_pos h2] at h
        omega
      · rw [if_neg h2] at h
        have hj : getChildIndex rest id = ((i - 1 : ℕ) : ℤ) := by omega
        have := ih hj
        simp only [List.length_cons]
        omega

theorem editedIdIs_clear (edited : Option Child) (id : ChildId) :
    editedIdIs (if editedIdIs edited id then none else edited) id = false := by
  split_ifs with h
  · rfl
  · simpa using h

/-! Claim C1. -/

/-- C1 counterexample: deleting region id 3 from a five region list through
the delete-element handler shrinks the editor child list to four entries
(the slot is spliced out, not set to a null tombstone), refuting the claim
that the list keeps its length with a null hole. -/
theorem C1_counterexample :
    c1State.parsedChildren.length = 5 ∧
    (deleteElementHandler c1State (.num 3)).parsedChildren.length = 4 ∧
    (deleteElementHandler c1State (.num 3)).parsedChildren.map (Option.map Child.id) =
      [some (.num 1), some (.num 2), some (.num 4), some (.num 5)] := by
  refine ⟨rfl, by decide, by decide⟩

/-- C1 (amended): when the delete-element handler runs for an id present at
index i of the editor child list, the slot is spliced out — the list
becomes the eraseIdx of the old one and its length decreases by one, the
later regions shifting down — while the selection loses the id and the
edit state no longer references it.  (The length-preserving null
tombstoning happens in the sibling table widget's own list, not in the
editor.) -/
theorem C1_delete_splices (s : EditorState) (id : ChildId) (i : ℕ)
    (hidx : getChildIndex s.parsedChildren id = (i : ℤ)) :
    (deleteElementHandler s id).parsedChildren = s.parsedChildren.eraseIdx i ∧
    (deleteElementHandler s id).parsedChildren.length = s.parsedChildren.length - 1 ∧
    (deleteElementHandler s id).selected = s.selected.erase id ∧
    editedIdIs (deleteElementHandler s id).editedElement id = false := by
  have hi := getChildIndex_lt_length hidx
  have hpc : (removeSelectedForce s id).parsedChildren = s.parsedChildren := by
    by_cases hmem : id ∈ s.selected
    · rw [removeSelectedForce, if_pos hmem]
    · rw [removeSelectedForce, if_neg hmem]
  have hsel : (removeSelectedForce s id).selected = s.selected.erase id := by
    by_cases hmem : id ∈ s.selected
    · rw [removeSelectedForce, if_pos hmem]
    · rw [removeSelectedForce, if_neg hmem]
      exact (List.erase_of_not_mem hmem).symm
  have hchildren : (deleteElementHandler s id).parsedChildren = s.parsedChildren.eraseIdx i := by
    simp only [deleteElementHandler]
    rw [hpc, hidx, jsSplice_eraseIdx _ _ hi]
  refine ⟨hchildren, ?_, ?_, ?_⟩
  · rw [hchildren]
    exact List.length_eraseIdx_of_lt hi
  · simp only [deleteElementHandler]
    exact hsel
  · simp only [deleteElementHandler]
    exact editedIdIs_clear _ _

/-- C1 witness: the amended deletion behaviour applied to the concrete five
region state, deleting id 3 found at index 2. -/
theorem C1_witness :
    (deleteElementHandler c1State (.num 3)).parsedChildren =
      c1State.parsedChildren.eraseIdx 2 ∧
    (deleteElementHandler c1State (.num 3)).parsedChildren.length =
      c1State.parsedChildren.length - 1 ∧
    (deleteElementHandler c1State (.num 3)).selected = c1State.selected.erase (.num 3) ∧
    editedIdIs (deleteElementHandler c1State (.num 3)).editedElement (.num 3) = false :=
  C1_delete_splices c1State (.num 3) 2 (by decide)

theorem checkPolygon_square :
    checkPolygon (ratPolyRaw squarePolygon) polygonMinSize =
      .ok [(0, 0), (10, 0), (10, 10), (0, 10)] := by
  norm_num [checkPolygon, checkRounded, ratPolyRaw, ratRaw, finitePoints, finiteCoordPair,
    roundPoint, mathRound, dedupConsecutive, dedupAfter, pointsEqual, getSize, listMinD,
    listMaxD, polygonMaxPoints, polygonMinSize, squarePolygon, List.getLast, Prod.mk.injEq,
    -Prod.mk_zero_zero, -Prod.mk_one_one, List.getD]

theorem checkPolygon_tiny :
    checkPolygon (ratPolyRaw tinyPolygon) polygonMinSize = .error .tooSmall := by
  norm_num [checkPolygon, checkRounded, ratPolyRaw, ratRaw, finitePoints, finiteCoordPair,
    roundPoint, mathRound, dedupConsecutive, dedupAfter, pointsEqual, getSize, listMinD,
    listMaxD, polygonMaxPoints, polygonMinSize, tinyPolygon, List.getLast, Prod.mk.injEq,
    -Prod.mk_zero_zero, -Prod.mk_one_one, List.getD]

/-! Claim C2. -/

/-- C2 counterexample: deleting region id 5 (the last entry) from the five
region list and then committing a new drawing assigns the new region id 5
— the freshly deleted id is reused and the result is not max existing id
plus one of the original list — refuting the claim that deleted ids are
never reused. -/
theorem C2_counterexample :
    (create (deleteElementHandler c2State (.num 5))).1.parsedChildren.map
        (Option.map Child.id) =
      [some (.num 1), some (.num 2), some (.num 3), some (.num 4), some (.num 5)] ∧
    (create (deleteElementHandler c2State (.num 5))).2 = none := by
  have hdel : deleteElementHandler c2State (.num 5) =
      { parsedChildren := [some (sampleChild 1), some (sampleChild 2), some (sampleChild 3),
          some (sampleChild 4)],
        editedElement := some { id := .createdPolygon, polygon := squarePolygon },
        selected := [],
        movedPointIndex := none,
        lastMousePosition := none,
        updatedPolygon := false,
        events := [] } := by decide
  rw [hdel]
  simp only [create, checkPolygon_square]
  decide

/-- C2 (amended): the id of a created region is the id of the last list
entry plus one when that entry exists and has a numeric id, and 1 for an
empty list; on a successful commit the new region is appended and a
create-element notification is emitted; deleting a non-final region leaves
subsequent creations unaffected: deleting id 3 from the five region list
makes the next created id 6. -/
theorem C2_create_id_rule :
    (∀ (children : List (Option Child)) (c : Child) (n : ℤ),
      children.getLast? = some (some c) → c.id = .num n → editorNewId children = n + 1) ∧
    (∀ children : List (Option Child), children = [] → editorNewId children = 1) ∧
    (∀ (s : EditorState) (ee : Child) (polygon : List IntPoint),
      s.editedElement = some ee →
      checkPolygon (ratPolyRaw ee.polygon) polygonMinSize = .ok polygon →
      (create s).1.parsedChildren = s.parsedChildren ++
        [some { id := .num (editorNewId s.parsedChildren), polygon := intPolyQ polygon }] ∧
      (create s).1.events = s.events ++
        [.createElement (.num (editorNewId s.parsedChildren)) polygon] ∧
      (create s).1.editedElement = none ∧
      (create s).2 = none) ∧
    ((create (deleteElementHandler c2State (.num 3))).1.parsedChildren.map
        (Option.map Child.id) =
      [some (.num 1), some (.num 2), some (.num 4), some (.num 5), some (.num 6)]) := by
  refine ⟨?_, ?_, ?_, ?_⟩
  · intro children c n h1 h2
    simp only [editorNewId, h1, h2]
  · intro children h
    rw [h]
    rfl
  · intro s ee polygon h1 h2
    simp only [create, h1, h2]
    exact ⟨trivial, trivial, trivial, trivial⟩
  · have hdel : deleteElementHandler c2State (.num 3) =
        { parsedChildren := [some (sampleChild 1), some (sampleChild 2), some (sampleChild 4),
            some (sampleChild 5)],
          editedElement := some { id := .createdPolygon, polygon := squarePolygon },
          selected := [],
          movedPointIndex := none,
          lastMousePosition := none,
          updatedPolygon := false,
          events := [] } := by decide
    rw [hdel]
    simp only [create, checkPolygon_square]
    decide

/-- C2 witness: the id rule and notification applied to the concrete state
with five regions and a valid in-progress drawing. -/
theorem C2_witness :
    (create c2State).1.parsedChildren = c2State.parsedChildren ++
      [some { id := .num (editorNewId c2State.parsedChildren),
              polygon := intPolyQ [(0, 0), (10, 0), (10, 10), (0, 10)] }] ∧
    (create c2State).1.events = c2State.events ++
      [.createElement (.num (editorNewId c2State.parsedChildren))
        [(0, 0), (10, 0), (10, 10), (0, 10)]] ∧
    (create c2State).1.editedElement = none ∧
    (create c2State).2 = none :=
  C2_create_id_rule.2.2.1 c2State { id := .createdPolygon, polygon := squarePolygon }
    [(0, 0), (10, 0), (10, 10), (0, 10)] rfl checkPolygon_square

/-! Claim C3. -/

/-- C3 counterexample: committing an edited region whose geometry is
rejected by checkPolygon (a 1 by 1 polygon, too small) makes saveEdited
rethrow the failure — the exception escapes to the caller and the edit
state is retained — refuting the claim that no exception escapes and the
attempted region is silently dropped; only the committed list staying
unchanged holds. -/
theorem C3_counterexample :
    (saveEdited c3State).2 = some .tooSmall ∧
    (saveEdited c3State).1.parsedChildren = c3State.parsedChildren ∧
    (saveEdited c3State).1.editedElement = c3State.editedElement := by
  simp only [saveEdited, c3State, checkPolygon_tiny]
  decide

/-- C3 (amended): a draw commit (create) whose geometry fails checkPolygon
with an InvalidPolygonError is silently dropped — the committed list is
unchanged, no exception escapes and the editor returns to idle — and a
failure that is not an InvalidPolygonError is rethrown with the state
unchanged; an edit commit (saveEdited) of a modified polygon whose
geometry fails checkPolygon leaves the committed list unchanged but
rethrows the failure to its caller and keeps the edit state. -/
theorem C3_invalid_commits (s : EditorState) (ee : Child) (f : PolyFailure)
    (hee : s.editedElement = some ee)
    (hfail : checkPolygon (ratPolyRaw ee.polygon) polygonMinSize = .error f) :
    (isInvalidPolygonError f = true →
      create s = ({ s with editedElement := none }, none)) ∧
    (isInvalidPolygonError f = false → create s = (s, some f)) ∧
    (s.updatedPolygon = true →
      (saveEdited s).1.parsedChildren = s.parsedChildren ∧
      (saveEdited s).1.editedElement = s.editedElement ∧
      (saveEdited s).2 = some f) := by
  refine ⟨?_, ?_, ?_⟩
  · intro hinv
    simp only [create, hee, hfail, hinv, if_true]
  · intro hinv
    simp only [create, hee, hfail, hinv]
    rfl
  · intro hupd
    simp only [saveEdited, hee, hfail, hupd, Bool.not_true, Bool.and_false]
    exact ⟨rfl, rfl, rfl⟩

/-- C3 witness: the silent drop of an invalid draw commit applied to the
concrete in-progress state. -/
theorem C3_witness :
    create c3CreateState = ({ c3CreateState with editedElement := none }, none) :=
  (C3_invalid_commits c3CreateState { id := .createdPolygon, polygon := tinyPolygon }
    .tooSmall rfl checkPolygon_tiny).1 rfl

/-! Claim C7. -/

theorem elementLimits_inBox (box : Box) (pos : ℚ × ℚ) (hw : 0 ≤ box.width)
    (hh : 0 ≤ box.height) : inBox box (elementLimits box pos) := by
  rw [elementLimits, inBox]
  dsimp only
  refine ⟨?_, ?_, ?_, ?_⟩ <;> split_ifs <;> linarith

theorem elementLimits_of_inBox {box : Box} {p : ℚ × ℚ} (h : inBox box p) :
    elementLimits box p = p := by
  obtain ⟨h1, h2, h3, h4⟩ := h
  rw [elementLimits, Prod.ext_iff]
  dsimp only
  constructor <;> split_ifs <;> first | rfl | linarith

theorem inBox_of_eq_elementLimits {box : Box} {p : ℚ × ℚ} (hw : 0 ≤ box.width)
    (hh : 0 ≤ box.height) (h : p = elementLimits box p) : inBox box p := by
  rw [h]
  exact elementLimits_inBox box p hw hh

theorem mem_jsSplice {α : Type} {l : List α} {start : ℤ} {d : ℕ} {items : List α} {a : α}
    (h : a ∈ jsSplice l start d items) : a ∈ l ∨ a ∈ items := by
  rw [jsSplice] at h
  rcases List.mem_append.mp h with h2 | h2
  · rcases List.mem_append.mp h2 with h3 | h3
    · exact Or.inl (List.take_subset _ _ h3)
    · exact Or.inr h3
  · exact Or.inl (List.drop_subset _ _ h2)

theorem jsSplice_replace_eq {α : Type} (l : List α) (i : ℕ) (hi : i < l.length) (x : α) :
    jsSplice l (i : ℤ) 1 [x] = l.take i ++ [x] ++ l.drop (i + 1) := by
  rw [jsSplice, jsSpliceStart_natCast l i hi]

theorem jsSplice_neg_one {α : Type} (l : List α) (hl : l ≠ []) (x : α) :
    jsSplice l (-1) 1 [x] = l.dropLast ++ [x] := by
  have h1 : jsSpliceStart l (-1) = l.length - 1 := by
    rw [jsSpliceStart, if_pos (by norm_num)]
    rfl
  have h2 : l.length - 1 + 1 = l.length := by
    cases l with
    | nil => exact absurd rfl hl
    | cons a as => simp
  rw [jsSplice, h1, h2, List.drop_length, List.append_nil, List.dropLast_eq_take]

theorem jsSplice_replace_getD {α : Type} (l : List α) (i : ℕ) (hi : i < l.length) (x d : α) :
    (jsSplice l (i : ℤ) 1 [x]).getD i d = x := by
  rw [jsSplice_replace_eq l i hi x, List.append_assoc]
  have hlen : (l.take i).length = i := by
    rw [List.length_take]
    omega
  rw [List.getD_eq_getElem?_getD, List.getElem?_append_right (by omega), hlen]
  simp

theorem jsSplice_replace_length {α : Type} (l : List α) (i : ℕ) (hi : i < l.length) (x : α) :
    (jsSplice l (i : ℤ) 1 [x]).length = l.length := by
  rw [jsSplice_replace_eq l i hi x]
  simp only [List.length_append, List.length_take, List.length_cons, List.length_nil,
    List.length_drop]
  omega

theorem listMinD_le_listMaxD_zero (xs : List ℚ) : listMinD 0 xs ≤ listMaxD 0 xs := by
  cases xs with
  | nil => exact le_refl 0
  | cons a as => exact listMinD_le_listMaxD 0 (List.cons_ne_nil a as)

theorem clampTo_mono (limit : ℚ) {v u : ℚ} (h : v ≤ u) : clampTo limit v ≤ clampTo limit u :=
  min_le_min le_rfl (max_le_max h le_rfl)

theorem boundingBox_nonneg (element : Element) (box : Box)
    (h : boundingBox element true = .ok box) : 0 ≤ box.width ∧ 0 ≤ box.height := by
  rw [boundingBox] at h
  by_cases g1 : (element.polygon.isNone && element.image.isNone) = true
  · rw [if_pos g1] at h
    cases h
  · rw [if_neg g1, if_pos rfl] at h
    cases himg : element.image with
    | none => rw [himg] at h; cases h
    | some img =>
      rw [himg] at h
      dsimp only at h
      split_ifs at h with g2
      cases h
      exact ⟨sub_nonneg.mpr (clampTo_mono img.width (listMinD_le_listMaxD_zero _)),
        sub_nonneg.mpr (clampTo_mono img.height (listMinD_le_listMaxD_zero _))⟩

/-- C7: throughout vertex-drag and polygon-drag gestures every vertex of the
edited polygon stays inside the element's bounding box: (1) a successful
movePoint keeps all vertices of a polygon that was inside the box inside the
box; (2) it replaces the dragged vertex by the clamped mouse position
elementLimits, and when the dragged vertex is the shared first vertex the
clamped position is mirrored onto the last vertex; (3) a successful
movePolygon is exactly the whole-polygon translation by the mouse vector,
with every shifted vertex inside the box; (4) a translation that would put
any vertex out of bounds is rejected as a no-op (undefined result, polygon
untouched); (5) the bounding box computed with image bounds always has
non-negative dimensions, so the clamp is well defined. -/
theorem C7_drag_clamped (box : Box) (hw : 0 ≤ box.width) (hh : 0 ≤ box.height)
    (polygon : List (ℚ × ℚ)) (i : ℕ) (pos lm : ℚ × ℚ) :
    (∀ q, movePoint polygon i box pos = some q →
      (∀ p ∈ polygon, inBox box p) → ∀ p ∈ q, inBox box p) ∧
    (∀ q, movePoint polygon i box pos = some q → i < polygon.length →
      q.length = polygon.length ∧ q.getD i (0, 0) = elementLimits box pos ∧
      (i = 0 → q.getLast? = some (elementLimits box pos))) ∧
    (∀ q, movePolygon polygon lm box pos = some q →
      q = shiftPolygon polygon (pos.1 - lm.1, pos.2 - lm.2) ∧ ∀ p ∈ q, inBox box p) ∧
    (∀ p ∈ shiftPolygon polygon (pos.1 - lm.1, pos.2 - lm.2), ¬ inBox box p →
      movePolygon polygon lm box pos = none) ∧
    (∀ (element : Element) (b : Box), boundingBox element true = .ok b →
      0 ≤ b.width ∧ 0 ≤ b.height) := by
  refine ⟨?_, ?_, ?_, ?_, ?_⟩
  · intro q hq hpoly p hp
    rw [movePoint] at hq
    split_ifs at hq with h1 h2
    · rw [Option.some.injEq] at hq
      subst hq
      rcases mem_jsSplice hp with h3 | h3
      · rcases mem_jsSplice h3 with h4 | h4
        · exact hpoly p h4
        · rw [List.mem_singleton] at h4
          subst h4
          exact elementLimits_inBox box pos hw hh
      · rw [List.mem_singleton] at h3
        subst h3
        exact elementLimits_inBox box pos hw hh
    · rw [Option.some.injEq] at hq
      subst hq
      rcases mem_jsSplice hp with h3 | h3
      · exact hpoly p h3
      · rw [List.mem_singleton] at h3
        subst h3
        exact elementLimits_inBox box pos hw hh
  · intro q hq hi
    rw [movePoint] at hq
    split_ifs at hq with h1 h2
    · subst h2
      rw [Option.some.injEq] at hq
      subst hq
      have he : jsSplice polygon ((0 : ℕ) : ℤ) 1 [elementLimits box pos]
          = elementLimits box pos :: polygon.drop 1 := by
        rw [jsSplice_replace_eq polygon 0 hi]
        simp
      rw [he, jsSplice_neg_one _ (List.cons_ne_nil _ _)]
      refine ⟨?_, ?_, fun _ => List.getLast?_concat _⟩
      · simp [List.length_dropLast, List.length_drop]
        omega
      · cases hdt : polygon.drop 1 with
        | nil => rfl
        | cons b bs => rfl
    · rw [Option.some.injEq] at hq
      subst hq
      exact ⟨jsSplice_replace_length polygon i hi _, jsSplice_replace_getD polygon i hi _ _,
        fun h0 => absurd h0 h2⟩
  · intro q hq
    rw [movePolygon] at hq
    split_ifs at hq with h1 h2
    rw [Option.some.injEq] at hq
    subst hq
    refine ⟨rfl, fun p hp => ?_⟩
    have h3 : pointsEqual p (elementLimits box p) = true := List.all_eq_true.mp h2 p hp
    exact inBox_of_eq_elementLimits hw hh ((pointsEqual_iff _ _).mp h3)
  · intro p hp hnb
    rw [movePolygon]
    split_ifs with h1 h2
    · rfl
    · have h3 : pointsEqual p (elementLimits box p) = true := List.all_eq_true.mp h2 p hp
      exact absurd (inBox_of_eq_elementLimits hw hh ((pointsEqual_iff _ _).mp h3)) hnb
    · rfl
  · intro element b hb
    exact boundingBox_nonneg element b hb

/-- C7 witness: dragging the whole sample square polygon 200 pixels to the
right of a 100 by 100 box pushes the vertex at (210, 0) out of bounds, and
the move is rejected as a no-op. -/
theorem C7_witness :
    movePolygon squarePolygon (0, 0) { x := 0, y := 0, width := 100, height := 100 }
      (200, 0) = none := by
  refine (C7_drag_clamped { x := 0, y := 0, width := 100, height := 100 } (by norm_num)
    (by norm_num) squarePolygon 1 (200, 0) (0, 0)).2.2.2.1 (210, 0) ?_ ?_
  · norm_num [shiftPolygon, squarePolygon, Prod.ext_iff]
  · norm_num [inBox]
